import Mathlib

/-!
Verification of the WebSurfer page-inspection engine (injected script).

The engine is a JavaScript module operating on a live DOM.  We embed it
shallowly: an abstract `Page` carries the data the engine reads from the
host (node list in document order, per-node layout data and attributes,
the hit-testing oracle `elementFromPoint`, the focused element, and the
results of the document-level label queries).  Node references are `Nat`
identifiers.  The engine's only mutation - stamping the `__elementId`
attribute - is modelled by explicit state passing.  The attribute's value
is the decimal string of a counter in JS; decimal encoding is injective,
so we model the stored value as the `Nat` itself (`Elem.elementId`).
Geometry uses `ℚ` (JS numbers; all coordinates appearing here are exact).
-/

namespace WebSurfer

/-- A DOMRect as the engine consumes it: `left`, `top`, `width`, `height`
(the serialized form also carries `x`, `y`, `right`, `bottom`, but those
are derived fields). -/
structure Rect where
  left : ℚ
  top : ℚ
  width : ℚ
  height : ℚ
deriving Repr, DecidableEq

/-- The per-node data the engine reads from the host. `elementId` models the
`__elementId` attribute (stored as a decimal string in JS; the encoding is
injective so we keep the number). `spanLabelChild` is the host's answer to
`element.querySelector("span.label")`. `tag` is the lowercased tag name.
`parent` is the parent element (none at the document boundary). -/
structure Elem where
  tag : String
  attrs : List (String × String)
  elementId : Option Nat
  disabled : Bool
  offsetWidth : ℚ
  offsetHeight : ℚ
  clientRects : List Rect
  boundingRect : Rect
  parent : Option Nat
  cursor : String
  scrollHeight : ℚ
  clientHeight : ℚ
  innerText : String
  spanLabelChild : Option Nat
  inShadow : Bool
deriving Repr

/-- The host document as the engine sees it.  `nodes` lists all element
references in document order (shadow-tree content flagged by `inShadow`);
`elem` resolves a reference; `elementFromPoint`, `activeElement`,
`getElementById`, and the two `labelsFor` fields are host queries
(`labelsForThrows` records the query raising, the case the engine catches). -/
structure Page where
  nodes : List Nat
  elem : Nat → Elem
  activeElement : Option Nat
  elementFromPoint : ℚ → ℚ → Option Nat
  getElementById : String → Option Nat
  labelsFor : String → List Nat
  labelsForThrows : String → Bool

def hasAttr (el : Elem) (k : String) : Bool :=
  (el.attrs.lookup k).isSome

def getAttr (el : Elem) (k : String) : Option String :=
  el.attrs.lookup k

def getAttrD (el : Elem) (k : String) : String :=
  (el.attrs.lookup k).getD ""

/-- isVisible: truthiness of `offsetWidth || offsetHeight || getClientRects().length`. -/
def isVisible (el : Elem) : Bool :=
  el.offsetWidth != 0 || el.offsetHeight != 0 || !el.clientRects.isEmpty

/-- The ancestor-or-self chain obtained by following `parentNode` links,
with explicit fuel (the JS loop runs on a finite acyclic tree; in
well-formed pages parents have strictly smaller references, so fuel
`n + 1` starting from `n` always suffices, see `WFParents`). -/
def ancestorChain (p : Page) : Nat → Nat → List Nat
  | 0, n => [n]
  | fuel + 1, n =>
    n :: (match (p.elem n).parent with
      | none => []
      | some m => ancestorChain p fuel m)

/-- Pages whose parent links strictly decrease the node reference; this
makes every `parentNode` walk terminate within `n + 1` steps. -/
def WFParents (p : Page) : Prop :=
  ∀ n m, (p.elem n).parent = some m → m < n

/-- isTopmost: hit-test `elementFromPoint(x, y)`; a null hit is treated as
unoccluded; otherwise walk the hit's parent chain looking for `element`. -/
def isTopmost (p : Page) (element : Nat) (x y : ℚ) : Bool :=
  match p.elementFromPoint x y with
  | none => true
  | some hit => (ancestorChain p (hit + 1) hit).contains element

/-- getFocusedElementId: walk up from `document.activeElement` to the first
node carrying `__elementId` and return that identifier. -/
def getFocusedElementId (p : Page) : Option Nat :=
  match p.activeElement with
  | none => none
  | some a =>
    ((ancestorChain p (a + 1) a).find? (fun m => ((p.elem m).elementId).isSome)).bind
      (fun m => (p.elem m).elementId)

/-- JS whitespace for trimming purposes. -/
def isWsChar (c : Char) : Bool :=
  c = ' ' || c = '\t' || c = '\n' || c = '\r'

/-- String.prototype.trim, executable by the kernel (structural recursion
over the character list). -/
def trimStr (s : String) : String :=
  String.mk (((s.data.dropWhile isWsChar).reverse.dropWhile isWsChar).reverse)

def splitOnSpaceAux : List Char → List Char → List String
  | [], cur => [String.mk cur.reverse]
  | c :: rest, cur =>
    if c = ' ' then String.mk cur.reverse :: splitOnSpaceAux rest []
    else splitOnSpaceAux rest (c :: cur)

/-- String.prototype.split(" "): split on each single space character. -/
def splitOnSpace (s : String) : List String :=
  splitOnSpaceAux s.data []

/-- trimmedInnerText: empty for a null element or empty text, else trimmed. -/
def trimmedInnerText (p : Page) (n : Option Nat) : String :=
  match n with
  | none => ""
  | some m => trimStr (p.elem m).innerText

/-- The aria-labelledby branch: space-join the trimmed text of each
referenced element that exists, then trim the buffer. -/
def labelledbyText (p : Page) (el : Elem) : String :=
  let ids := splitOnSpace (getAttrD el "aria-labelledby")
  trimStr (ids.foldl (fun buffer i =>
    match p.getElementById i with
    | some label => buffer ++ " " ++ trimmedInnerText p (some label)
    | none => buffer) "")

/-- The label[for=id] branch body: concatenate the innerText of every
matching label (each followed by a space), then trim. -/
def forLabelText (p : Page) (idv : String) : String :=
  trimStr ((p.labelsFor idv).foldl
    (fun label l => label ++ (p.elem l).innerText ++ " ") "")

/-- The tail of the cascade after the label strategies: name attribute,
parent LABEL element, alt, title, then trimmed own text. -/
def ariaNameAfterLabels (p : Page) (n : Nat) : String :=
  let el := p.elem n
  if hasAttr el "name" then getAttrD el "name"
  else
    match el.parent with
    | some pa =>
      if (p.elem pa).tag == "label" then (p.elem pa).innerText
      else if hasAttr el "alt" then getAttrD el "alt"
      else if hasAttr el "title" then getAttrD el "title"
      else trimStr el.innerText
    | none =>
      if hasAttr el "alt" then getAttrD el "alt"
      else if hasAttr el "title" then getAttrD el "title"
      else trimStr el.innerText

/-- getApproximateAriaName, line for line from the source: aria-label,
span.label child, aria-labelledby, aria-label again, label[for] (falling
through when the lookup raises or yields an empty string), then the tail. -/
def getApproximateAriaName (p : Page) (n : Nat) : String :=
  let el := p.elem n
  if hasAttr el "aria-label" then getAttrD el "aria-label"
  else
    match el.spanLabelChild with
    | some c => (p.elem c).innerText
    | none =>
      if hasAttr el "aria-labelledby" then labelledbyText p el
      else if hasAttr el "aria-label" then getAttrD el "aria-label"
      else
        if hasAttr el "id" && !p.labelsForThrows (getAttrD el "id")
            && forLabelText p (getAttrD el "id") != "" then
          forLabelText p (getAttrD el "id")
        else ariaNameAfterLabels p n

/-- The same function with the mid-cascade second aria-label check removed
(the variant claim C10 compares against). -/
def getApproximateAriaNameNoSecond (p : Page) (n : Nat) : String :=
  let el := p.elem n
  if hasAttr el "aria-label" then getAttrD el "aria-label"
  else
    match el.spanLabelChild with
    | some c => (p.elem c).innerText
    | none =>
      if hasAttr el "aria-labelledby" then labelledbyText p el
      else
        if hasAttr el "id" && !p.labelsForThrows (getAttrD el "id")
            && forLabelText p (getAttrD el "id") != "" then
          forLabelText p (getAttrD el "id")
        else ariaNameAfterLabels p n

/-- getApproximateAriaRole: explicit role attribute first, else the fixed
tag-to-role table (input tags refined by their type attribute), else an
empty role; the second component is the (refined) tag identifier. -/
def roleMapping : List (String × String) :=
  [("a", "link"), ("area", "link"), ("button", "button"),
   ("input, type=button", "button"), ("input, type=checkbox", "checkbox"),
   ("input, type=email", "textbox"), ("input, type=number", "spinbutton"),
   ("input, type=radio", "radio"), ("input, type=range", "slider"),
   ("input, type=reset", "button"), ("input, type=search", "searchbox"),
   ("input, type=submit", "button"), ("input, type=tel", "textbox"),
   ("input, type=text", "textbox"), ("input, type=url", "textbox"),
   ("search", "search"), ("select", "combobox"), ("option", "option"),
   ("textarea", "textbox")]

def getApproximateAriaRole (el : Elem) : String × String :=
  let tag :=
    if el.tag == "input" && hasAttr el "type" then
      el.tag ++ ", type=" ++ getAttrD el "type"
    else el.tag
  if hasAttr el "role" then (getAttrD el "role", tag)
  else
    match roleMapping.lookup tag with
    | some r => (r, tag)
    | none => ("", tag)

/-- The widget-role allow-list of getInteractiveElementsNoShaddow. -/
def rolesList : List String :=
  ["scrollbar", "searchbox", "slider", "spinbutton", "switch", "tab",
   "treeitem", "button", "checkbox", "gridcell", "link", "menuitem",
   "menuitemcheckbox", "menuitemradio", "option", "progressbar", "radio",
   "textbox", "combobox", "menu", "tree", "treegrid", "grid", "listbox",
   "radiogroup", "widget"]

def inertCursors : List String :=
  ["auto", "default", "none", "text", "vertical-text", "not-allowed", "no-drop"]

/-- Matching the main selector
input, select, textarea, button, [href], [onclick], [contenteditable],
[tabindex]:not([tabindex=-1]). -/
def matchesMainSelector (el : Elem) : Bool :=
  el.tag == "input" || el.tag == "select" || el.tag == "textarea" ||
  el.tag == "button" || hasAttr el "href" || hasAttr el "onclick" ||
  hasAttr el "contenteditable" ||
  (hasAttr el "tabindex" && getAttr el "tabindex" != some "-1")

/-- Document-level queries see only nodes outside shadow trees. -/
def docNodes (p : Page) : List Nat :=
  p.nodes.filter (fun n => !(p.elem n).inShadow)

/-- First rule: natively interactive tags/attributes, not disabled, visible. -/
def noShadowPass1 (p : Page) : List Nat :=
  (docNodes p).foldl (fun results n =>
    let el := p.elem n
    if matchesMainSelector el then
      if el.disabled || !isVisible el then results else results ++ [n]
    else results) []

/-- Second rule: declared widget role, not disabled, visible, not already kept. -/
def noShadowPass2 (p : Page) (acc : List Nat) : List Nat :=
  (docNodes p).foldl (fun results n =>
    let el := p.elem n
    if hasAttr el "role" then
      if el.disabled || !isVisible el then results
      else if results.contains n then results
      else if rolesList.contains (getAttrD el "role") then results ++ [n]
      else results
    else results) acc

/-- Walk up while the parent keeps the same computed cursor (the JS while
loop; fuel `n + 1` suffices for decreasing parent links). -/
def climbCursor (p : Page) (cursor : String) : Nat → Nat → Nat
  | 0, n => n
  | fuel + 1, n =>
    match (p.elem n).parent with
    | none => n
    | some par =>
      if (p.elem par).cursor == cursor then climbCursor p cursor fuel par else n

/-- getInteractiveElementsNoShaddow: the three rules in sequence over one
growing results array (the third rule, the cursor affordance walk, is the
final fold). -/
def getInteractiveElementsNoShaddow (p : Page) : List Nat :=
  (docNodes p).foldl (fun results n =>
    let el := p.elem n
    if el.disabled || !isVisible el then results
    else if inertCursors.contains el.cursor then results
    else
      let node := climbCursor p el.cursor (n + 1) n
      if results.contains node then results else results ++ [node])
    (noShadowPass2 p (noShadowPass1 p))

/-- The shadow-aware selector set of the second gathering pass (tag-name
selectors, taken verbatim from the source, including the entries that can
only match exotic tag names). -/
def interactiveRoles : List String :=
  ["input", "option", "select", "textarea", "button", "href", "onclick",
   "contenteditable", "tabindex:not([tabindex=\x27-1\x27])"]

/-- Matching the joined selector of `interactiveRoles` against one element. -/
def matchesGatherSelector (el : Elem) : Bool :=
  el.tag == "input" || el.tag == "option" || el.tag == "select" ||
  el.tag == "textarea" || el.tag == "button" || el.tag == "href" ||
  el.tag == "onclick" || el.tag == "contenteditable" ||
  (el.tag == "tabindex" && getAttr el "tabindex" != some "-1")

/-- gatherAllElements over the document and every open shadow root: the
flattened node list filtered by the selector set (traversal-stack order is
not observable by any claim, so document order is used). -/
def gatherAllElements (p : Page) : List Nat :=
  p.nodes.filter (fun n => matchesGatherSelector (p.elem n))

/-- The rectangle-center hit test used when keeping a candidate. -/
def centerTopmost (p : Page) (n : Nat) (r : Rect) : Bool :=
  isTopmost p n (r.left + r.width / 2) (r.top + r.height / 2)

/-- getInteractiveElements: keep no-shadow candidates that are topmost at
the center of some client rectangle, then run the second pass over the
shadow-aware gather: file inputs and options unconditionally, every other
visible enabled element whose tag appears in the selector set. -/
def getInteractiveElements (p : Page) : List Nat :=
  let base := (getInteractiveElementsNoShaddow p).foldl (fun results n =>
    if results.contains n then results
    else if (p.elem n).clientRects.any (centerTopmost p n) then results ++ [n]
    else results) []
  (gatherAllElements p).foldl (fun results n =>
    let el := p.elem n
    if el.tag == "input" && getAttr el "type" == some "file" then results ++ [n]
    else if el.tag == "option" then results ++ [n]
    else if el.disabled || !isVisible el then results
    else if interactiveRoles.contains el.tag then results ++ [n]
    else results) base

/-- Stamp one element with an identifier. -/
def setElementId (p : Page) (n k : Nat) : Page :=
  { p with elem := fun m => if m = n then { p.elem n with elementId := some k } else p.elem m }

/-- The labelling loop: every not-yet-labelled node in the input receives
the next counter value. -/
def labelLoop : Nat → Page → List Nat → Nat × Page
  | c, p, [] => (c, p)
  | c, p, n :: rest =>
    if ((p.elem n).elementId).isSome then labelLoop c p rest
    else labelLoop (c + 1) (setElementId p n c) rest

/-- labelElements: stamp, then return a freshly recomputed interactive list. -/
def labelElements (c : Nat) (p : Page) (elements : List Nat) :
    Nat × Page × List Nat :=
  let r := labelLoop c p elements
  (r.1, r.2, getInteractiveElements r.2)

/-- One interactive record (rects keeps the serialized DOMRects). -/
structure IRecord where
  tag_name : String
  role : String
  ariaName : String
  vScrollable : Bool
  rects : List Rect
deriving Repr, DecidableEq

/-- closest("select") from an element: nearest ancestor-or-self with tag select. -/
def closestSelect (p : Page) (n : Nat) : Option Nat :=
  (ancestorChain p (n + 1) n).find? (fun m => (p.elem m).tag == "select")

/-- The option special case of getInteractiveRects: kept when the owning
select carries the focused identifier, or the option is itself visible, or
the owning select has the open attribute. -/
def optionKept (p : Page) (n : Nat) : Bool :=
  let select_focused :=
    match closestSelect p n with
    | some s =>
      ((p.elem s).elementId).isSome &&
        getFocusedElementId p == (p.elem s).elementId
    | none => false
  let option_visible := isVisible (p.elem n)
  let select_expanded :=
    match closestSelect p n with
    | some s => hasAttr (p.elem s) "open"
    | none => false
  select_focused || option_visible || select_expanded

/-- The record built for one surviving element.  The source does
`rects = getBoundingClientRect()`, a single DOMRect: `rects.length` is
undefined, so the `rects.length > 0` branch (which would filter each client
rectangle through isTopmost at its center) never runs, and the else branch
pushes the one serialized bounding rectangle unconditionally. -/
def recordFor (p : Page) (n : Nat) : IRecord :=
  let el := p.elem n
  let ariaRole := getApproximateAriaRole el
  { tag_name := ariaRole.2
    role := ariaRole.1
    ariaName := getApproximateAriaName p n
    vScrollable := decide ((1 : ℚ) ≤ el.scrollHeight - el.clientHeight)
    rects := [el.boundingRect] }

/-- JS object assignment results[key] = record: replace in place or append. -/
def insertRec (l : List (Option Nat × IRecord)) (k : Option Nat) (v : IRecord) :
    List (Option Nat × IRecord) :=
  if (l.lookup k).isSome then
    l.map (fun kv => if kv.1 == k then (k, v) else kv)
  else l ++ [(k, v)]

/-- The results loop of getInteractiveRects. -/
def rectsLoop (p : Page) : List Nat → List (Option Nat × IRecord) →
    List (Option Nat × IRecord)
  | [], results => results
  | n :: rest, results =>
    if (p.elem n).tag == "option" && !optionKept p n then
      rectsLoop p rest results
    else
      rectsLoop p rest (insertRec results ((p.elem n).elementId) (recordFor p n))

structure RectsOut where
  results : List (Option Nat × IRecord)
  counter : Nat
  page : Page

/-- getInteractiveRects: label all interactive elements, then build the
identifier-keyed record map over the recomputed element list. -/
def getInteractiveRects (c : Nat) (p : Page) : RectsOut :=
  let l := labelElements c p (getInteractiveElements p)
  { results := rectsLoop l.2.1 l.2.2 [], counter := l.1, page := l.2.1 }

/-- The element list the record loop of getInteractiveRects iterates. -/
def rectsElements (c : Nat) (p : Page) : List Nat :=
  (labelElements c p (getInteractiveElements p)).2.2

/-- An element as claim C3 enumerates the cascade: the value each labelling
strategy would yield (empty when its source is absent). -/
def nameStrategyValues (p : Page) (n : Nat) : List String :=
  let el := p.elem n
  [getAttrD el "aria-label",
   (match el.spanLabelChild with
    | some c => (p.elem c).innerText
    | none => ""),
   (if hasAttr el "aria-labelledby" then labelledbyText p el else ""),
   getAttrD el "aria-label",
   (if hasAttr el "id" && !p.labelsForThrows (getAttrD el "id") then
      forLabelText p (getAttrD el "id")
    else ""),
   getAttrD el "name",
   (match el.parent with
    | some pa => if (p.elem pa).tag == "label" then (p.elem pa).innerText else ""
    | none => ""),
   getAttrD el "alt",
   getAttrD el "title",
   trimStr el.innerText]

/-- The resolver as claim C3 states it: the first non-empty strategy result
in the cascade order (empty when every strategy yields an empty string). -/
def claimNameResolver (p : Page) (n : Nat) : String :=
  ((nameStrategyValues p n).find? (fun s => s != "")).getD ""

/-- Each strategy of the cascade as the code actually runs it: `some` when
the strategy is applicable (its trigger holds; the for-label strategy is
applicable only when its lookup neither raises nor yields an empty string),
carrying the value it returns. -/
def nameStrategyResults (p : Page) (n : Nat) : List (Option String) :=
  let el := p.elem n
  [if hasAttr el "aria-label" then some (getAttrD el "aria-label") else none,
   (el.spanLabelChild).map (fun c => (p.elem c).innerText),
   if hasAttr el "aria-labelledby" then some (labelledbyText p el) else none,
   if hasAttr el "aria-label" then some (getAttrD el "aria-label") else none,
   if hasAttr el "id" && !p.labelsForThrows (getAttrD el "id")
       && forLabelText p (getAttrD el "id") != "" then
     some (forLabelText p (getAttrD el "id"))
   else none,
   if hasAttr el "name" then some (getAttrD el "name") else none,
   (match el.parent with
    | some pa =>
      if (p.elem pa).tag == "label" then some ((p.elem pa).innerText) else none
    | none => none),
   if hasAttr el "alt" then some (getAttrD el "alt") else none,
   if hasAttr el "title" then some (getAttrD el "title") else none]

/-- Take the first applicable strategy's value, else the default. -/
def firstApplicable : List (Option String) → String → String
  | [], dflt => dflt
  | some s :: _, _ => s
  | none :: rest, dflt => firstApplicable rest dflt

/-- A default element: an invisible plain div with no attributes. -/
def defElem : Elem :=
  { tag := "div", attrs := [], elementId := none, disabled := false,
    offsetWidth := 0, offsetHeight := 0, clientRects := [],
    boundingRect := { left := 0, top := 0, width := 0, height := 0 },
    parent := none, cursor := "auto", scrollHeight := 0, clientHeight := 0,
    innerText := "", spanLabelChild := none, inShadow := false }

/-- An empty host document. -/
def defPage : Page :=
  { nodes := [], elem := fun _ => defElem, activeElement := none,
    elementFromPoint := fun _ _ => none, getElementById := fun _ => none,
    labelsFor := fun _ => [], labelsForThrows := fun _ => false }

/-- The 10 x 10 rectangle at the origin. -/
def rectTen : Rect := { left := 0, top := 0, width := 10, height := 10 }

/-- C1 scenario: node 0 is a visible button whose only rectangle is fully
covered by node 1 (the host reports node 1 at every point). -/
def pageC1 : Page :=
  { defPage with
    nodes := [0, 1],
    elem := fun n =>
      if n = 0 then
        { defElem with
          tag := "button"
          offsetWidth := 10
          offsetHeight := 10
          clientRects := [rectTen]
          boundingRect := rectTen }
      else
        { defElem with
          offsetWidth := 10
          offsetHeight := 10
          clientRects := [rectTen]
          boundingRect := rectTen },
    elementFromPoint := fun _ _ => some 1 }

/-- C2 scenario: one file input with zero layout extent and no client
rectangles. -/
def pageC2 : Page :=
  { defPage with
    nodes := [0],
    elem := fun _ => { defElem with tag := "input", attrs := [("type", "file")] } }

/-- C3 scenario: an element whose aria-labelledby references a missing id
while its title attribute holds a non-empty label. -/
def pageC3 : Page :=
  { defPage with
    nodes := [0],
    elem := fun _ =>
      { defElem with
        tag := "span"
        attrs := [("aria-labelledby", "zz"), ("title", "Hello")] } }

/-- A one-node document holding only the default invisible div. -/
def pageOneDiv : Page := { defPage with nodes := [0] }

/-- A visible select (node 0) with three hidden option children (1 to 3). -/
def elemSel : Nat → Elem := fun n =>
  if n = 0 then
    { defElem with
      tag := "select"
      offsetWidth := 10
      offsetHeight := 10
      clientRects := [rectTen]
      boundingRect := rectTen }
  else if n ≤ 3 then
    { defElem with
      tag := "option"
      parent := some 0 }
  else defElem

/-- The closed, unfocused select scenario of claim C4. -/
def pageSel : Page :=
  { defPage with nodes := [0, 1, 2, 3], elem := elemSel }

/-- The same document with the select focused. -/
def pageSelFocused : Page :=
  { defPage with nodes := [0, 1, 2, 3], elem := elemSel, activeElement := some 0 }

/-- An element with its identifier field cleared (everything the engine
reads apart from the stamped identifier). -/
def stripId (el : Elem) : Elem := { el with elementId := none }

/-- A node of the cloned document tree getPageMarkdown walks: a text node
or an element with tag, attributes, and children. -/
inductive MNode
  | text (s : String)
  | elem (tag : String) (attrs : List (String × String)) (children : List MNode)

mutual
/-- textContent: concatenation of all descendant text, in order. -/
def textContent : MNode → String
  | .text s => s
  | .elem _ _ cs => textContentList cs
def textContentList : List MNode → String
  | [] => ""
  | c :: cs => textContent c ++ textContentList cs
end

def strippedTags : List String := ["script", "style", "nav", "footer", "aside"]

def isStrippedNode : MNode → Bool
  | .text _ => false
  | .elem tag _ _ => strippedTags.contains tag

mutual
/-- Remove every script/style/nav/footer/aside subtree from the clone. -/
def stripNode : MNode → MNode
  | .text s => .text s
  | .elem tag attrs cs => .elem tag attrs (stripList cs)
def stripList : List MNode → List MNode
  | [] => []
  | c :: cs =>
    if isStrippedNode c then stripList cs else stripNode c :: stripList cs
end

mutual
/-- querySelectorAll("li") from an element: all descendant li elements in
document order. -/
def collectLis : MNode → List MNode
  | .text _ => []
  | .elem _ _ cs => collectLisList cs
def collectLisList : List MNode → List MNode
  | [] => []
  | c :: cs =>
    (match c with
     | .elem tag _ _ => if tag == "li" then c :: collectLis c else collectLis c
     | .text _ => []) ++ collectLisList cs
end

/-- Does the string end in the given character. -/
def endsWithChar (s : String) (c : Char) : Bool :=
  match s.data.reverse with
  | [] => false
  | d :: _ => d = c

def mdBlockTags : List String := ["div", "p", "section", "article", "header", "main"]

/-- One list item line: numbered for ol, dashed for ul; empty items are
skipped but still advance the index. -/
def buildListItems (tag : String) : List MNode → Nat → String
  | [], _ => ""
  | li :: rest, i =>
    let mark := if tag == "ol" then toString (i + 1) ++ ". " else "- "
    let liText := trimStr (textContent li)
    (if liText != "" then mark ++ liText ++ "\n" else "")
      ++ buildListItems tag rest (i + 1)

/-- processElement: the per-tag markdown production; none means the walker
recurses into the children instead. -/
def processElement : MNode → Option String
  | .text _ => none
  | .elem tag attrs cs =>
    let text := trimStr (textContentList cs)
    if tag == "h1" then some (if text != "" then "# " ++ text ++ "\n\n" else "")
    else if tag == "h2" then some (if text != "" then "## " ++ text ++ "\n\n" else "")
    else if tag == "h3" then some (if text != "" then "### " ++ text ++ "\n\n" else "")
    else if tag == "h4" then some (if text != "" then "#### " ++ text ++ "\n\n" else "")
    else if tag == "h5" then some (if text != "" then "##### " ++ text ++ "\n\n" else "")
    else if tag == "h6" then some (if text != "" then "###### " ++ text ++ "\n\n" else "")
    else if tag == "p" then some (if text != "" then text ++ "\n\n" else "")
    else if tag == "a" then
      some (match attrs.lookup "href" with
        | some h => if h != "" && text != "" then "[" ++ text ++ "](" ++ h ++ ")" else text
        | none => text)
    else if tag == "strong" || tag == "b" then
      some (if text != "" then "**" ++ text ++ "**" else "")
    else if tag == "em" || tag == "i" then
      some (if text != "" then "*" ++ text ++ "*" else "")
    else if tag == "code" then
      some (if text != "" then "\x60" ++ text ++ "\x60" else "")
    else if tag == "pre" then
      some (if text != "" then "\x60\x60\x60\n" ++ text ++ "\n\x60\x60\x60\n\n" else "")
    else if tag == "ul" || tag == "ol" then
      let listItems := buildListItems tag (collectLisList cs) 0
      some (if listItems != "" then listItems ++ "\n" else "")
    else if tag == "blockquote" then
      some (if text != "" then "> " ++ text ++ "\n\n" else "")
    else if tag == "br" then some "\n"
    else if tag == "hr" then some "---\n\n"
    else none

mutual
/-- walkNodes with the markdown accumulator threaded explicitly. -/
def walkNode (markdown : String) : MNode → String
  | .text s =>
    let text := trimStr s
    if text != "" then
      (if markdown != "" && !endsWithChar markdown ' '
          && !endsWithChar markdown '\n' then
        markdown ++ " "
      else markdown) ++ text
    else markdown
  | .elem tag attrs cs =>
    match processElement (.elem tag attrs cs) with
    | some processed => markdown ++ processed
    | none =>
      let md2 := walkList markdown cs
      if mdBlockTags.contains tag && md2 != "" && !endsWithChar md2 '\n' then
        md2 ++ "\n"
      else md2
def walkList (markdown : String) : List MNode → String
  | [] => markdown
  | c :: cs => walkList (walkNode markdown c) cs
end

/-- Collapse every run of spaces and tabs to one space. -/
def collapseWsAux : List Char → Bool → List Char
  | [], pending => if pending then [' '] else []
  | c :: rest, pending =>
    if c = ' ' || c = '\t' then collapseWsAux rest true
    else if pending then ' ' :: c :: collapseWsAux rest false
    else c :: collapseWsAux rest false

/-- Collapse every run of three or more newlines to two. -/
def collapseNlAux : List Char → Nat → List Char
  | [], k => List.replicate (min k 2) '\n'
  | c :: rest, k =>
    if c = '\n' then collapseNlAux rest (k + 1)
    else List.replicate (min k 2) '\n' ++ (c :: collapseNlAux rest 0)

/-- The final whitespace normalization of getPageMarkdown. -/
def cleanupMarkdown (s : String) : String :=
  trimStr (String.mk (collapseNlAux (collapseWsAux s.data false) 0))

/-- The try block of getPageMarkdown: clone (identity on the value), strip,
walk, normalize, with the empty-result fallback; a host fault anywhere in
there surfaces as the thrown error message. -/
def getPageMarkdownTry (fault : Option String) (body : MNode) :
    Except String String :=
  match fault with
  | some msg => Except.error msg
  | none =>
    let markdown := cleanupMarkdown (walkNode "" (stripNode body))
    Except.ok (if markdown != "" then markdown else "No content found")

/-- getPageMarkdown: the try block wrapped in the catch that converts any
failure into a diagnostic string. -/
def getPageMarkdown (fault : Option String) (body : MNode) : String :=
  match getPageMarkdownTry fault body with
  | Except.ok s => s
  | Except.error msg => "Error extracting page content: " ++ msg

/-- JSON values (the subset JSON.parse is modelled on: integral numbers,
plain strings). -/
inductive Json
  | null
  | bool (b : Bool)
  | num (n : Int)
  | str (s : String)
  | arr (elems : List Json)
  | obj (fields : List (String × Json))

def isJsonWs (c : Char) : Bool :=
  c = ' ' || c = '\t' || c = '\n' || c = '\r'

def skipWs : List Char → List Char
  | [] => []
  | c :: rest => if isJsonWs c then skipWs rest else c :: rest

def isDigitCh (c : Char) : Bool := '0' ≤ c && c ≤ '9'

def digitsToNat : List Char → Nat → Nat
  | [], acc => acc
  | c :: rest, acc => digitsToNat rest (acc * 10 + (c.toNat - '0'.toNat))

def takeDigits : List Char → List Char × List Char
  | [] => ([], [])
  | c :: rest =>
    if isDigitCh c then
      let r := takeDigits rest
      (c :: r.1, r.2)
    else ([], c :: rest)

/-- Scan a JSON string body up to the closing quote (escape sequences are
outside the modelled subset). -/
def takeStr : List Char → Option (String × List Char)
  | [] => none
  | c :: rest =>
    if c = '"' then some ("", rest)
    else
      match takeStr rest with
      | some (s, r) => some (String.mk (c :: s.data), r)
      | none => none

mutual
/-- Recursive-descent JSON.parse on the modelled subset, fuelled. -/
def parseVal : Nat → List Char → Option (Json × List Char)
  | 0, _ => none
  | fuel + 1, cs =>
    match skipWs cs with
    | [] => none
    | c :: rest =>
      if c = 'n' then
        (match rest with
         | 'u' :: 'l' :: 'l' :: r => some (.null, r)
         | _ => none)
      else if c = 't' then
        (match rest with
         | 'r' :: 'u' :: 'e' :: r => some (.bool true, r)
         | _ => none)
      else if c = 'f' then
        (match rest with
         | 'a' :: 'l' :: 's' :: 'e' :: r => some (.bool false, r)
         | _ => none)
      else if c = '"' then
        match takeStr rest with
        | some (s, r) => some (.str s, r)
        | none => none
      else if c = '[' then
        match skipWs rest with
        | ']' :: r => some (.arr [], r)
        | r2 => parseArrItems fuel r2 []
      else if c = '{' then
        match skipWs rest with
        | '}' :: r => some (.obj [], r)
        | r2 => parseObjItems fuel r2 []
      else if c = '-' then
        match takeDigits rest with
        | ([], _) => none
        | (ds, r) => some (.num (-(digitsToNat ds 0 : Int)), r)
      else if isDigitCh c then
        match takeDigits (c :: rest) with
        | ([], _) => none
        | (ds, r) => some (.num ((digitsToNat ds 0 : Nat) : Int), r)
      else none

def parseArrItems : Nat → List Char → List Json → Option (Json × List Char)
  | 0, _, _ => none
  | fuel + 1, cs, acc =>
    match parseVal fuel cs with
    | none => none
    | some (v, r) =>
      match skipWs r with
      | ',' :: r2 => parseArrItems fuel r2 (acc ++ [v])
      | ']' :: r2 => some (.arr (acc ++ [v]), r2)
      | _ => none

def parseObjItems : Nat → List Char → List (String × Json) →
    Option (Json × List Char)
  | 0, _, _ => none
  | fuel + 1, cs, acc =>
    match skipWs cs with
    | '"' :: r =>
      match takeStr r with
      | none => none
      | some (key, r2) =>
        match skipWs r2 with
        | ':' :: r3 =>
          match parseVal fuel r3 with
          | none => none
          | some (v, r4) =>
            match skipWs r4 with
            | ',' :: r5 => parseObjItems fuel r5 (acc ++ [(key, v)])
            | '}' :: r5 => some (.obj (acc ++ [(key, v)]), r5)
            | _ => none
        | _ => none
    | _ => none
end

/-- JSON.parse of a whole string: one value plus trailing whitespace. -/
def parseJson (s : String) : Option Json :=
  match parseVal (2 * s.length + 2) s.data with
  | some (v, r) => if (skipWs r).isEmpty then some v else none
  | none => none

/-- One meta element: its name, property, and content attributes. -/
structure MetaTag where
  name : Option String
  property : Option String
  content : Option String

/-- The document as getPageMetadata consumes it: the innerHTML of each
application/ld+json script in document order, the meta elements, and the
microdata items the traversal produced (their internal structure does not
matter to any claim). -/
structure MetaDoc where
  ldScripts : List String
  metas : List MetaTag
  microItems : List Json

inductive JsonldField
  | parsed (v : Json)
  | raw (ss : List String)

structure PageMetadata where
  jsonld : Option JsonldField
  microdata : Option (List Json)
  meta_tags : Option (List (String × String))

/-- getJsonLd: the trimmed innerHTML of each ld+json script. -/
def getJsonLd (d : MetaDoc) : List String :=
  d.ldScripts.map trimStr

/-- JS object assignment for the flattened meta-tag map. -/
def insertMeta (l : List (String × String)) (k v : String) :
    List (String × String) :=
  if (l.lookup k).isSome then l.map (fun kv => if kv.1 == k then (k, v) else kv)
  else l ++ [(k, v)]

/-- getMetaTags: name (else property) mapped to content. -/
def getMetaTags (metas : List MetaTag) : List (String × String) :=
  metas.foldl (fun results m =>
    match (match m.name with | some nm => some nm | none => m.property) with
    | none => results
    | some key =>
      match m.content with
      | some cv => insertMeta results key cv
      | none => results) []

/-- JS Array-to-String coercion applied by JSON.parse(jsonld): the elements
joined with commas. -/
def joinComma : List String → String
  | [] => ""
  | [s] => s
  | s :: rest => s ++ "," ++ joinComma rest

/-- getPageMetadata: a single combined parse of the ld+json bodies, falling
back to the raw trimmed strings; meta tags and microdata only when
non-empty. -/
def getPageMetadata (d : MetaDoc) : PageMetadata :=
  let jsonld := getJsonLd d
  let metaTags := getMetaTags d.metas
  let microdata := d.microItems
  { jsonld :=
      if jsonld.length > 0 then
        some (match parseJson (joinComma jsonld) with
          | some v => .parsed v
          | none => .raw jsonld)
      else none
    microdata := if microdata.length > 0 then some microdata else none
    meta_tags := if metaTags.length > 0 then some metaTags else none }

/-- C8 counterexample document: two scripts, each body invalid JSON on its
own, whose comma-joined concatenation parses. -/
def metaDocC8 : MetaDoc := { ldScripts := ["[1,2", "3]"], metas := [], microItems := [] }

/-- C8 witness document: one script whose body is not JSON. -/
def metaDocC8b : MetaDoc := { ldScripts := ["not json"], metas := [], microItems := [] }

/-- The painted element is the node itself or has the node on the chain
reached by repeatedly following parentNode: SelfOrAncestor p h n holds when
the walk up from h passes through n. -/
inductive SelfOrAncestor (p : Page) : Nat → Nat → Prop
  | refl (n : Nat) : SelfOrAncestor p n n
  | step (h m n : Nat) : (p.elem h).parent = some m →
      SelfOrAncestor p m n → SelfOrAncestor p h n

/-- One engine-visible transition between snapshots within a page lifetime:
a labelling call over an arbitrary node list (the only mutation the engine
performs), or removal of a node from the tree by unrelated host activity. -/
inductive EngineStep : Nat × Page → Nat × Page → Prop
  | label (c : Nat) (p : Page) (es : List Nat) :
      EngineStep (c, p) ((labelLoop c p es).1, (labelLoop c p es).2)
  | remove (c : Nat) (p : Page) (e : Nat) :
      EngineStep (c, p) (c, { p with nodes := p.nodes.erase e })

/-- Two documents that agree on everything except possibly the stamped
identifiers (the gathering pipeline never reads those). -/
structure SameView (p q : Page) : Prop where
  nodes : p.nodes = q.nodes
  active : p.activeElement = q.activeElement
  efp : p.elementFromPoint = q.elementFromPoint
  byId : p.getElementById = q.getElementById
  lfor : p.labelsFor = q.labelsFor
  lthrows : p.labelsForThrows = q.labelsForThrows
  elems : ∀ n, stripId (p.elem n) = stripId (q.elem n)

end WebSurfer

namespace WebSurfer

theorem mem_foldl_push (f : List Nat → Nat → List Nat) (C : Nat → Nat → Prop)
    (hf : ∀ acc n x, x ∈ f acc n → x ∈ acc ∨ C n x) :
    ∀ (l acc : List Nat) (x : Nat),
      x ∈ List.foldl f acc l → x ∈ acc ∨ ∃ n ∈ l, C n x := by
  intro l
  induction l with
  | nil => intro acc x hx; exact Or.inl hx
  | cons n l ih =>
    intro acc x hx
    rcases ih (f acc n) x hx with h | ⟨m, hm, hc⟩
    · rcases hf acc n x h with h' | hc
      · exact Or.inl h'
      · exact Or.inr ⟨n, List.mem_cons_self n l, hc⟩
    · exact Or.inr ⟨m, List.mem_cons_of_mem _ hm, hc⟩

theorem labelLoop_stripId :
    ∀ (es : List Nat) (c : Nat) (p : Page) (n : Nat),
      stripId (((labelLoop c p es).2).elem n) = stripId (p.elem n) := by
  intro es
  induction es with
  | nil => intro c p n; rfl
  | cons m es ih =>
    intro c p n
    unfold labelLoop
    by_cases h : ((p.elem m).elementId).isSome = true
    · simp only [h, if_true]
      exact ih c p n
    · simp only [h, if_false, Bool.false_eq_true]
      rw [ih]
      unfold setElementId stripId
      by_cases hm : n = m
      · subst hm; simp
      · simp [hm]

theorem labelLoop_preserves_host :
    ∀ (es : List Nat) (c : Nat) (p : Page),
      (labelLoop c p es).2.nodes = p.nodes
      ∧ (labelLoop c p es).2.activeElement = p.activeElement
      ∧ (labelLoop c p es).2.elementFromPoint = p.elementFromPoint
      ∧ (labelLoop c p es).2.getElementById = p.getElementById
      ∧ (labelLoop c p es).2.labelsFor = p.labelsFor
      ∧ (labelLoop c p es).2.labelsForThrows = p.labelsForThrows := by
  intro es
  induction es with
  | nil => intro c p; exact ⟨rfl, rfl, rfl, rfl, rfl, rfl⟩
  | cons n es ih =>
    intro c p
    unfold labelLoop
    by_cases hn : ((p.elem n).elementId).isSome = true
    · simp only [hn, if_true]
      exact ih c p
    · simp only [hn, Bool.false_eq_true, if_false]
      exact ih (c + 1) (setElementId p n c)

theorem stripId_fields {a b : Elem} (h : stripId a = stripId b) :
    a.tag = b.tag ∧ a.attrs = b.attrs ∧ a.disabled = b.disabled
    ∧ a.offsetWidth = b.offsetWidth ∧ a.offsetHeight = b.offsetHeight
    ∧ a.clientRects = b.clientRects ∧ a.boundingRect = b.boundingRect
    ∧ a.parent = b.parent ∧ a.cursor = b.cursor
    ∧ a.scrollHeight = b.scrollHeight ∧ a.clientHeight = b.clientHeight
    ∧ a.innerText = b.innerText ∧ a.spanLabelChild = b.spanLabelChild
    ∧ a.inShadow = b.inShadow := by
  cases a; cases b
  simp only [stripId, Elem.mk.injEq] at h
  simp_all

theorem stripId_tag {a b : Elem} (h : stripId a = stripId b) : a.tag = b.tag :=
  (stripId_fields h).1

theorem stripId_attrs {a b : Elem} (h : stripId a = stripId b) : a.attrs = b.attrs :=
  (stripId_fields h).2.1

theorem stripId_disabled {a b : Elem} (h : stripId a = stripId b) :
    a.disabled = b.disabled :=
  (stripId_fields h).2.2.1

theorem stripId_clientRects {a b : Elem} (h : stripId a = stripId b) :
    a.clientRects = b.clientRects :=
  (stripId_fields h).2.2.2.2.2.1

theorem stripId_boundingRect {a b : Elem} (h : stripId a = stripId b) :
    a.boundingRect = b.boundingRect :=
  (stripId_fields h).2.2.2.2.2.2.1

theorem stripId_parent {a b : Elem} (h : stripId a = stripId b) :
    a.parent = b.parent :=
  (stripId_fields h).2.2.2.2.2.2.2.1

theorem stripId_cursor {a b : Elem} (h : stripId a = stripId b) :
    a.cursor = b.cursor :=
  (stripId_fields h).2.2.2.2.2.2.2.2.1

theorem stripId_scrollHeight {a b : Elem} (h : stripId a = stripId b) :
    a.scrollHeight = b.scrollHeight :=
  (stripId_fields h).2.2.2.2.2.2.2.2.2.1

theorem stripId_clientHeight {a b : Elem} (h : stripId a = stripId b) :
    a.clientHeight = b.clientHeight :=
  (stripId_fields h).2.2.2.2.2.2.2.2.2.2.1

theorem stripId_innerText {a b : Elem} (h : stripId a = stripId b) :
    a.innerText = b.innerText :=
  (stripId_fields h).2.2.2.2.2.2.2.2.2.2.2.1

theorem stripId_spanLabelChild {a b : Elem} (h : stripId a = stripId b) :
    a.spanLabelChild = b.spanLabelChild :=
  (stripId_fields h).2.2.2.2.2.2.2.2.2.2.2.2.1

theorem stripId_inShadow {a b : Elem} (h : stripId a = stripId b) :
    a.inShadow = b.inShadow :=
  (stripId_fields h).2.2.2.2.2.2.2.2.2.2.2.2.2

theorem hasAttr_congr {a b : Elem} (h : stripId a = stripId b) (k : String) :
    hasAttr a k = hasAttr b k := by
  unfold hasAttr
  rw [stripId_attrs h]

theorem getAttr_congr {a b : Elem} (h : stripId a = stripId b) (k : String) :
    getAttr a k = getAttr b k := by
  unfold getAttr
  rw [stripId_attrs h]

theorem getAttrD_congr {a b : Elem} (h : stripId a = stripId b) (k : String) :
    getAttrD a k = getAttrD b k := by
  unfold getAttrD
  rw [stripId_attrs h]

theorem isVisible_congr {a b : Elem} (h : stripId a = stripId b) :
    isVisible a = isVisible b := by
  unfold isVisible
  rw [(stripId_fields h).2.2.2.1, (stripId_fields h).2.2.2.2.1, stripId_clientRects h]

theorem matchesMainSelector_congr {a b : Elem} (h : stripId a = stripId b) :
    matchesMainSelector a = matchesMainSelector b := by
  unfold matchesMainSelector
  simp only [stripId_tag h, hasAttr_congr h, getAttr_congr h]

theorem matchesGatherSelector_congr {a b : Elem} (h : stripId a = stripId b) :
    matchesGatherSelector a = matchesGatherSelector b := by
  unfold matchesGatherSelector
  simp only [stripId_tag h, getAttr_congr h]

theorem docNodes_congr {p q : Page} (h : SameView p q) : docNodes p = docNodes q := by
  unfold docNodes
  rw [h.nodes]
  apply List.filter_congr
  intro n _
  rw [stripId_inShadow (h.elems n)]

theorem ancestorChain_congr {p q : Page} (h : SameView p q) :
    ∀ fuel n, ancestorChain p fuel n = ancestorChain q fuel n := by
  intro fuel
  induction fuel with
  | zero => intro n; rfl
  | succ f ih =>
    intro n
    unfold ancestorChain
    rw [stripId_parent (h.elems n)]
    cases (q.elem n).parent with
    | none => rfl
    | some m => simp only [List.cons.injEq, true_and]; exact ih m

theorem isTopmost_congr {p q : Page} (h : SameView p q) (n : Nat) (x y : ℚ) :
    isTopmost p n x y = isTopmost q n x y := by
  unfold isTopmost
  rw [h.efp]
  cases q.elementFromPoint x y with
  | none => rfl
  | some hit => simp only; rw [ancestorChain_congr h]

theorem centerTopmost_congr {p q : Page} (h : SameView p q) (n : Nat) (r : Rect) :
    centerTopmost p n r = centerTopmost q n r := by
  unfold centerTopmost
  rw [isTopmost_congr h]

theorem climbCursor_congr {p q : Page} (h : SameView p q) (cur : String) :
    ∀ fuel n, climbCursor p cur fuel n = climbCursor q cur fuel n := by
  intro fuel
  induction fuel with
  | zero => intro n; rfl
  | succ f ih =>
    intro n
    unfold climbCursor
    rw [stripId_parent (h.elems n)]
    cases (q.elem n).parent with
    | none => rfl
    | some par =>
      simp only
      rw [stripId_cursor (h.elems par)]
      by_cases hc : ((q.elem par).cursor == cur) = true
      · rw [if_pos hc, if_pos hc, ih]
      · rw [if_neg hc, if_neg hc]

theorem noShadowPass1_congr {p q : Page} (h : SameView p q) :
    noShadowPass1 p = noShadowPass1 q := by
  unfold noShadowPass1
  rw [docNodes_congr h]
  congr 1
  funext results n
  simp only [matchesMainSelector_congr (h.elems n), stripId_disabled (h.elems n),
    isVisible_congr (h.elems n)]

theorem noShadowPass2_congr {p q : Page} (h : SameView p q) (acc : List Nat) :
    noShadowPass2 p acc = noShadowPass2 q acc := by
  unfold noShadowPass2
  rw [docNodes_congr h]
  congr 1
  funext results n
  simp only [hasAttr_congr (h.elems n), stripId_disabled (h.elems n),
    isVisible_congr (h.elems n), getAttrD_congr (h.elems n)]

theorem getInteractiveElementsNoShaddow_congr {p q : Page} (h : SameView p q) :
    getInteractiveElementsNoShaddow p = getInteractiveElementsNoShaddow q := by
  unfold getInteractiveElementsNoShaddow
  rw [docNodes_congr h, noShadowPass1_congr h, noShadowPass2_congr h]
  congr 1
  funext results n
  simp only [stripId_disabled (h.elems n), isVisible_congr (h.elems n),
    stripId_cursor (h.elems n), climbCursor_congr h]

theorem gatherAllElements_congr {p q : Page} (h : SameView p q) :
    gatherAllElements p = gatherAllElements q := by
  unfold gatherAllElements
  rw [h.nodes]
  apply List.filter_congr
  intro n _
  rw [matchesGatherSelector_congr (h.elems n)]

theorem getInteractiveElements_congr {p q : Page} (h : SameView p q) :
    getInteractiveElements p = getInteractiveElements q := by
  unfold getInteractiveElements
  rw [getInteractiveElementsNoShaddow_congr h, gatherAllElements_congr h]
  have hbase : (fun (results : List Nat) (n : Nat) =>
        if results.contains n then results
        else if (p.elem n).clientRects.any (centerTopmost p n) then results ++ [n]
        else results)
      = (fun (results : List Nat) (n : Nat) =>
        if results.contains n then results
        else if (q.elem n).clientRects.any (centerTopmost q n) then results ++ [n]
        else results) := by
    funext results n
    have hct : centerTopmost p n = centerTopmost q n :=
      funext (fun r => centerTopmost_congr h n r)
    rw [stripId_clientRects (h.elems n), hct]
  have hsecond : (fun (results : List Nat) (n : Nat) =>
        let el := p.elem n
        if el.tag == "input" && getAttr el "type" == some "file" then results ++ [n]
        else if el.tag == "option" then results ++ [n]
        else if el.disabled || !isVisible el then results
        else if interactiveRoles.contains el.tag then results ++ [n]
        else results)
      = (fun (results : List Nat) (n : Nat) =>
        let el := q.elem n
        if el.tag == "input" && getAttr el "type" == some "file" then results ++ [n]
        else if el.tag == "option" then results ++ [n]
        else if el.disabled || !isVisible el then results
        else if interactiveRoles.contains el.tag then results ++ [n]
        else results) := by
    funext results n
    simp only [stripId_tag (h.elems n), getAttr_congr (h.elems n),
      stripId_disabled (h.elems n), isVisible_congr (h.elems n)]
  rw [hbase, hsecond]

theorem sameView_labelLoop (es : List Nat) (c : Nat) (p : Page) :
    SameView p ((labelLoop c p es).2) := by
  obtain ⟨h1, h2, h3, h4, h5, h6⟩ := labelLoop_preserves_host es c p
  exact ⟨h1.symm, h2.symm, h3.symm, h4.symm, h5.symm, h6.symm,
    fun n => (labelLoop_stripId es c p n).symm⟩

theorem labelLoop_isSome_mono :
    ∀ (es : List Nat) (c : Nat) (p : Page) (e : Nat),
      ((p.elem e).elementId).isSome = true →
      ((((labelLoop c p es).2).elem e).elementId).isSome = true := by
  intro es
  induction es with
  | nil => intro c p e he; exact he
  | cons n es ih =>
    intro c p e he
    unfold labelLoop
    by_cases hn : ((p.elem n).elementId).isSome = true
    · simp only [hn, if_true]
      exact ih c p e he
    · simp only [hn, Bool.false_eq_true, if_false]
      apply ih
      by_cases hen : e = n
      · subst hen; simp [setElementId]
      · simp only [setElementId, hen, if_false]
        exact he

theorem labelLoop_labels :
    ∀ (es : List Nat) (c : Nat) (p : Page) (e : Nat), e ∈ es →
      ((((labelLoop c p es).2).elem e).elementId).isSome = true := by
  intro es
  induction es with
  | nil => intro c p e he; cases he
  | cons n es ih =>
    intro c p e he
    unfold labelLoop
    by_cases hn : ((p.elem n).elementId).isSome = true
    · simp only [hn, if_true]
      rcases List.mem_cons.1 he with rfl | hmem
      · exact labelLoop_isSome_mono es c p e hn
      · exact ih c p e hmem
    · simp only [hn, Bool.false_eq_true, if_false]
      rcases List.mem_cons.1 he with rfl | hmem
      · apply labelLoop_isSome_mono
        simp [setElementId]
      · exact ih (c + 1) (setElementId p n c) e hmem

theorem labelLoop_noop :
    ∀ (es : List Nat) (c : Nat) (p : Page),
      (∀ e ∈ es, ((p.elem e).elementId).isSome = true) →
      labelLoop c p es = (c, p) := by
  intro es
  induction es with
  | nil => intro c p _; rfl
  | cons n es ih =>
    intro c p hall
    unfold labelLoop
    simp only [hall n (List.mem_cons_self n es), if_true]
    exact ih c p (fun e he => hall e (List.mem_cons_of_mem n he))

theorem labelLoop_counter_le :
    ∀ (es : List Nat) (c : Nat) (p : Page), c ≤ (labelLoop c p es).1 := by
  intro es
  induction es with
  | nil => intro c p; exact Nat.le_refl c
  | cons n es ih =>
    intro c p
    unfold labelLoop
    by_cases hn : ((p.elem n).elementId).isSome = true
    · simp only [hn, if_true]; exact ih c p
    · simp only [hn, Bool.false_eq_true, if_false]
      exact Nat.le_trans (Nat.le_succ c) (ih (c + 1) (setElementId p n c))

theorem labelLoop_preserves_label :
    ∀ (es : List Nat) (c : Nat) (p : Page) (e : Nat) (k : Nat),
      (p.elem e).elementId = some k →
      (((labelLoop c p es).2).elem e).elementId = some k := by
  intro es
  induction es with
  | nil => intro c p e k he; exact he
  | cons n es ih =>
    intro c p e k he
    unfold labelLoop
    by_cases hn : ((p.elem n).elementId).isSome = true
    · simp only [hn, if_true]; exact ih c p e k he
    · simp only [hn, Bool.false_eq_true, if_false]
      apply ih
      by_cases hen : e = n
      · subst hen; rw [he] at hn; simp at hn
      · simp only [setElementId, hen, if_false]
        exact he

theorem labelLoop_id_lt_counter :
    ∀ (es : List Nat) (c : Nat) (p : Page),
      (∀ e k, (p.elem e).elementId = some k → k < c) →
      ∀ e k, (((labelLoop c p es).2).elem e).elementId = some k →
        k < (labelLoop c p es).1 := by
  intro es
  induction es with
  | nil => intro c p hlt e k he; exact hlt e k he
  | cons n es ih =>
    intro c p hlt e k he
    unfold labelLoop at he ⊢
    by_cases hn : ((p.elem n).elementId).isSome = true
    · simp only [hn, if_true] at he ⊢
      exact ih c p hlt e k he
    · simp only [hn, Bool.false_eq_true, if_false] at he ⊢
      refine ih (c + 1) (setElementId p n c) ?_ e k he
      intro e2 k2 h2
      by_cases hen : e2 = n
      · subst hen
        simp [setElementId] at h2
        omega
      · simp only [setElementId] at h2
        rw [if_neg hen] at h2
        exact Nat.lt_trans (hlt e2 k2 h2) (Nat.lt_succ_self c)

theorem labelLoop_id_ge_base :
    ∀ (es : List Nat) (c : Nat) (p : Page) (b : Nat),
      b ≤ c →
      (∀ e k, (p.elem e).elementId = some k → b ≤ k) →
      ∀ e k, (((labelLoop c p es).2).elem e).elementId = some k → b ≤ k := by
  intro es
  induction es with
  | nil => intro c p b _ hge e k he; exact hge e k he
  | cons n es ih =>
    intro c p b hbc hge e k he
    unfold labelLoop at he
    by_cases hn : ((p.elem n).elementId).isSome = true
    · simp only [hn, if_true] at he
      exact ih c p b hbc hge e k he
    · simp only [hn, Bool.false_eq_true, if_false] at he
      refine ih (c + 1) (setElementId p n c) b (Nat.le_trans hbc (Nat.le_succ c)) ?_ e k he
      intro e2 k2 h2
      by_cases hen : e2 = n
      · subst hen
        simp [setElementId] at h2
        omega
      · simp only [setElementId] at h2
        rw [if_neg hen] at h2
        exact hge e2 k2 h2

theorem labelLoop_fresh_ge :
    ∀ (es : List Nat) (c : Nat) (p : Page) (e : Nat) (k : Nat),
      (p.elem e).elementId = none →
      (((labelLoop c p es).2).elem e).elementId = some k → c ≤ k := by
  intro es
  induction es with
  | nil =>
    intro c p e k hnone hsome
    have h2 : (p.elem e).elementId = some k := hsome
    rw [hnone] at h2
    cases h2
  | cons n es ih =>
    intro c p e k hnone hsome
    unfold labelLoop at hsome
    by_cases hn : ((p.elem n).elementId).isSome = true
    · simp only [hn, if_true] at hsome
      exact ih c p e k hnone hsome
    · simp only [hn, Bool.false_eq_true, if_false] at hsome
      by_cases hen : e = n
      · subst hen
        have hset : ((setElementId p e c).elem e).elementId = some c := by
          simp [setElementId]
        have hpres := labelLoop_preserves_label es (c + 1) (setElementId p e c) e c hset
        rw [hpres] at hsome
        cases hsome
        exact Nat.le_refl c
      · have hnone2 : ((setElementId p n c).elem e).elementId = none := by
          simp only [setElementId]
          rw [if_neg hen]
          exact hnone
        exact Nat.le_trans (Nat.le_succ c) (ih (c + 1) (setElementId p n c) e k hnone2 hsome)

theorem labelLoop_inj :
    ∀ (es : List Nat) (c : Nat) (p : Page),
      (∀ e k, (p.elem e).elementId = some k → k < c) →
      (∀ e e' k k', (p.elem e).elementId = some k →
        (p.elem e').elementId = some k' → e ≠ e' → k ≠ k') →
      ∀ e e' k k', (((labelLoop c p es).2).elem e).elementId = some k →
        (((labelLoop c p es).2).elem e').elementId = some k' → e ≠ e' → k ≠ k' := by
  intro es
  induction es with
  | nil => intro c p _ hinj e e' k k' h h' hne; exact hinj e e' k k' h h' hne
  | cons n es ih =>
    intro c p hlt hinj e e' k k' h h' hne
    unfold labelLoop at h h'
    by_cases hn : ((p.elem n).elementId).isSome = true
    · simp only [hn, if_true] at h h'
      exact ih c p hlt hinj e e' k k' h h' hne
    · simp only [hn, Bool.false_eq_true, if_false] at h h'
      refine ih (c + 1) (setElementId p n c) ?_ ?_ e e' k k' h h' hne
      · intro e2 k2 h2
        by_cases hen : e2 = n
        · subst hen
          simp [setElementId] at h2
          omega
        · simp only [setElementId] at h2
          rw [if_neg hen] at h2
          exact Nat.lt_trans (hlt e2 k2 h2) (Nat.lt_succ_self c)
      · intro e2 e2' k2 k2' h2 h2' hne2
        by_cases he2n : e2 = n
        · subst he2n
          simp [setElementId] at h2
          have hne2n : ¬(e2' = e2) := fun hh => hne2 hh.symm
          simp only [setElementId] at h2'
          rw [if_neg hne2n] at h2'
          have hk2' := hlt e2' k2' h2'
          omega
        · simp only [setElementId] at h2
          rw [if_neg he2n] at h2
          by_cases he2n' : e2' = n
          · subst he2n'
            simp [setElementId] at h2'
            have hk2 := hlt e2 k2 h2
            omega
          · simp only [setElementId] at h2'
            rw [if_neg he2n'] at h2'
            exact hinj e2 e2' k2 k2' h2 h2' hne2

/-- A node with no client rectangles that is neither an option nor a file
input, and is invisible, is dropped by every rule of the gatherer. -/
theorem not_mem_interactive_of_invisible (p : Page) (e : Nat)
    (hr : (p.elem e).clientRects = [])
    (hvis : isVisible (p.elem e) = false)
    (hopt : ¬((p.elem e).tag = "option"))
    (hfile : ¬((p.elem e).tag = "input" ∧ getAttr (p.elem e) "type" = some "file")) :
    e ∉ getInteractiveElements p := by
  intro hmem
  unfold getInteractiveElements at hmem
  have h2 := mem_foldl_push _
    (fun n x => x = n ∧ ((p.elem n).tag = "input" ∧ getAttr (p.elem n) "type" = some "file"
      ∨ (p.elem n).tag = "option" ∨ isVisible (p.elem n) = true))
    (by
      intro acc n x hx
      dsimp only at hx
      split at hx
      · rcases List.mem_append.1 hx with h | h
        · exact Or.inl h
        · rename_i hcond
          simp only [Bool.and_eq_true, beq_iff_eq] at hcond
          exact Or.inr ⟨List.mem_singleton.1 h, Or.inl ⟨hcond.1, hcond.2⟩⟩
      · split at hx
        · rcases List.mem_append.1 hx with h | h
          · exact Or.inl h
          · rename_i hcond
            simp only [beq_iff_eq] at hcond
            exact Or.inr ⟨List.mem_singleton.1 h, Or.inr (Or.inl hcond)⟩
        · split at hx
          · exact Or.inl hx
          · split at hx
            · rcases List.mem_append.1 hx with h | h
              · exact Or.inl h
              · rename_i hdis _
                refine Or.inr ⟨List.mem_singleton.1 h, Or.inr (Or.inr ?_)⟩
                cases hvv : isVisible (p.elem n) with
                | true => rfl
                | false => exact absurd (by simp [hvv]) hdis
            · exact Or.inl hx)
    _ _ _ hmem
  rcases h2 with hbase | ⟨n, _, rfl, hc⟩
  · have h1 := mem_foldl_push _
      (fun n x => x = n ∧ (p.elem n).clientRects.any (centerTopmost p n) = true)
      (by
        intro acc n x hx
        split at hx
        · exact Or.inl hx
        · split at hx
          · rcases List.mem_append.1 hx with h | h
            · exact Or.inl h
            · rename_i hcond
              exact Or.inr ⟨List.mem_singleton.1 h, hcond⟩
          · exact Or.inl hx)
      _ _ _ hbase
    rcases h1 with h | ⟨n, _, rfl, hany⟩
    · simp at h
    · rw [hr] at hany
      simp at hany
  · rcases hc with hc | hc | hc
    · exact hfile hc
    · exact hopt hc
    · rw [hvis] at hc; exact Bool.false_ne_true hc

end WebSurfer

namespace WebSurfer

/-- C1: evaluation at the failing input: the covered button (node 0 of
pageC1) still gets a record whose rects list is exactly its one bounding
rectangle even though the visibility oracle rejects the element at that
rectangle's center (the occlusion-filtering branch of the source is
unreachable: getBoundingClientRect() has no length property). -/
theorem c1_rect_kept_despite_occlusion :
    (((getInteractiveRects 10 pageC1).results.lookup (some 10)).map IRecord.rects)
        = some [rectTen]
    ∧ centerTopmost pageC1 0 rectTen = false := by
  constructor
  · decide
  · decide

/-- C2 counterexample: the invisible file input of pageC2 - zero layout
width and height and no client rectangles - nevertheless appears in the
interactive element list and receives a record in getInteractiveRects. -/
theorem c2_counterexample_hidden_file_input :
    (pageC2.elem 0).offsetWidth = 0 ∧ (pageC2.elem 0).offsetHeight = 0
    ∧ (pageC2.elem 0).clientRects = []
    ∧ 0 ∈ getInteractiveElements pageC2
    ∧ ((getInteractiveRects 10 pageC2).results.lookup (some 10)).isSome = true := by
  refine ⟨rfl, rfl, rfl, ?_, rfl⟩
  decide

/-- C2 amended: a node with zero layout width and height and no client
rectangles never appears in any interactive snapshot unless it is an option
element or a file input (those two are added unconditionally by the second
gathering pass). -/
theorem c2_amended_visibility_exclusion (p : Page) (e c : Nat)
    (hw : (p.elem e).offsetWidth = 0) (hh : (p.elem e).offsetHeight = 0)
    (hr : (p.elem e).clientRects = [])
    (hopt : ¬((p.elem e).tag = "option"))
    (hfile : ¬((p.elem e).tag = "input" ∧ getAttr (p.elem e) "type" = some "file")) :
    e ∉ getInteractiveElements p ∧ e ∉ rectsElements c p := by
  have hvis : isVisible (p.elem e) = false := by
    unfold isVisible
    rw [hw, hh, hr]
    rfl
  constructor
  · exact not_mem_interactive_of_invisible p e hr hvis hopt hfile
  · show e ∉ getInteractiveElements ((labelLoop c p (getInteractiveElements p)).2)
    obtain ⟨htag, hattrs, _, hw2, hh2, hrects, _⟩ :=
      stripId_fields (labelLoop_stripId (getInteractiveElements p) c p e)
    have hvq :
        isVisible (((labelLoop c p (getInteractiveElements p)).2).elem e) = false := by
      unfold isVisible at hvis ⊢
      rw [hw2, hh2, hrects]
      exact hvis
    exact not_mem_interactive_of_invisible _ e (hrects.trans hr) hvq
      (by rw [htag]; exact hopt)
      (by unfold getAttr; rw [htag, hattrs]; exact hfile)

/-- C2 amended witness: the invisible plain div of pageOneDiv appears in
neither snapshot. -/
theorem c2_amended_visibility_exclusion_witness :
    0 ∉ getInteractiveElements pageOneDiv ∧ 0 ∉ rectsElements 10 pageOneDiv :=
  c2_amended_visibility_exclusion pageOneDiv 0 10 rfl rfl rfl
    (by decide) (by decide)

/-- C3 counterexample: on pageC3 the cascade as the claim states it (first
non-empty strategy result) would yield the title text, but the code returns
the empty string: the aria-labelledby strategy returns its empty buffer
without falling through to the later strategies. -/
theorem c3_counterexample_empty_labelledby :
    claimNameResolver pageC3 0 = "Hello"
    ∧ getApproximateAriaName pageC3 0 = "" := by
  constructor
  · rfl
  · rfl

/-- C3 amended: the resolver tries the strategies in exactly the stated
order but returns the result of the first applicable strategy even when
that result is empty; only the for-matching-label strategy falls through on
an empty result or a lookup error, and the final fallback is the trimmed
own text. -/
theorem c3_amended_first_applicable (p : Page) (n : Nat) :
    getApproximateAriaName p n =
      firstApplicable (nameStrategyResults p n) (trimStr (p.elem n).innerText) := by
  unfold getApproximateAriaName nameStrategyResults ariaNameAfterLabels
  by_cases h1 : hasAttr (p.elem n) "aria-label" = true
  · simp [h1, firstApplicable]
  · simp only [h1, Bool.false_eq_true, if_false]
    cases hsc : (p.elem n).spanLabelChild with
    | some c => simp [h1, hsc, firstApplicable]
    | none =>
      by_cases h2 : hasAttr (p.elem n) "aria-labelledby" = true
      · simp [h1, hsc, h2, firstApplicable]
      · by_cases h3 : (hasAttr (p.elem n) "id"
            && !p.labelsForThrows (getAttrD (p.elem n) "id")
            && forLabelText p (getAttrD (p.elem n) "id") != "") = true
        · simp [h1, hsc, h2, h3, firstApplicable]
        · by_cases h4 : hasAttr (p.elem n) "name" = true
          · simp [h1, hsc, h2, h3, h4, firstApplicable]
          · cases hpa : (p.elem n).parent with
            | some pa =>
              by_cases h5 : ((p.elem pa).tag == "label") = true
              · simp [h1, hsc, h2, h3, h4, hpa, h5, firstApplicable]
              · by_cases h6 : hasAttr (p.elem n) "alt" = true
                · simp [h1, hsc, h2, h3, h4, hpa, h5, h6, firstApplicable]
                · by_cases h7 : hasAttr (p.elem n) "title" = true
                  · simp [h1, hsc, h2, h3, h4, hpa, h5, h6, h7, firstApplicable]
                  · simp [h1, hsc, h2, h3, h4, hpa, h5, h6, h7, firstApplicable]
            | none =>
              by_cases h6 : hasAttr (p.elem n) "alt" = true
              · simp [h1, hsc, h2, h3, h4, hpa, h6, firstApplicable]
              · by_cases h7 : hasAttr (p.elem n) "title" = true
                · simp [h1, hsc, h2, h3, h4, hpa, h6, h7, firstApplicable]
                · simp [h1, hsc, h2, h3, h4, hpa, h6, h7, firstApplicable]

/-- C5: on an unchanged document, calling the labeler a second time on the
same node set assigns no new identifiers and returns the identical result,
and a second getInteractiveRects call returns the same identifier-keyed
records, the same counter, and the same page state. -/
theorem c5_idempotent_snapshots (c : Nat) (p : Page) (es : List Nat) :
    labelElements (labelElements c p es).1 (labelElements c p es).2.1 es
        = labelElements c p es
    ∧ getInteractiveRects (getInteractiveRects c p).counter
        (getInteractiveRects c p).page = getInteractiveRects c p := by
  constructor
  · have hA : labelLoop (labelLoop c p es).1 (labelLoop c p es).2 es
        = ((labelLoop c p es).1, (labelLoop c p es).2) :=
      labelLoop_noop es _ _ (fun e he => labelLoop_labels es c p e he)
    simp only [labelElements]
    rw [hA]
  · have hsv : SameView p ((labelLoop c p (getInteractiveElements p)).2) :=
      sameView_labelLoop (getInteractiveElements p) c p
    have hes : getInteractiveElements ((labelLoop c p (getInteractiveElements p)).2)
        = getInteractiveElements p := (getInteractiveElements_congr hsv).symm
    have hno : labelLoop (labelLoop c p (getInteractiveElements p)).1
        ((labelLoop c p (getInteractiveElements p)).2)
        (getInteractiveElements ((labelLoop c p (getInteractiveElements p)).2))
        = ((labelLoop c p (getInteractiveElements p)).1,
           (labelLoop c p (getInteractiveElements p)).2) := by
      apply labelLoop_noop
      intro e he
      rw [hes] at he
      exact labelLoop_labels (getInteractiveElements p) c p e he
    simp only [getInteractiveRects, labelElements]
    rw [hno]

theorem selfOrAncestor_of_mem_chain (p : Page) :
    ∀ (fuel h n : Nat), n ∈ ancestorChain p fuel h → SelfOrAncestor p h n := by
  intro fuel
  induction fuel with
  | zero =>
    intro h n hn
    unfold ancestorChain at hn
    rcases List.mem_singleton.1 hn with rfl
    exact SelfOrAncestor.refl _
  | succ f ih =>
    intro h n hn
    unfold ancestorChain at hn
    rcases List.mem_cons.1 hn with rfl | hmem
    · exact SelfOrAncestor.refl n
    · cases hp : (p.elem h).parent with
      | none => rw [hp] at hmem; cases hmem
      | some m =>
        rw [hp] at hmem
        exact SelfOrAncestor.step h m n hp (ih m n hmem)

theorem mem_chain_of_selfOrAncestor (p : Page) (hwf : WFParents p) :
    ∀ (h n : Nat), SelfOrAncestor p h n →
      ∀ fuel, h < fuel → n ∈ ancestorChain p fuel h := by
  intro h n hrel
  induction hrel with
  | refl a =>
    intro fuel hf
    cases fuel with
    | zero => omega
    | succ f =>
      unfold ancestorChain
      exact List.mem_cons_self _ _
  | step a m b hp _ ih =>
    intro fuel hf
    cases fuel with
    | zero => omega
    | succ f =>
      unfold ancestorChain
      rw [hp]
      refine List.mem_cons_of_mem a (ih f ?_)
      have := hwf a m hp
      omega

theorem sameView_symm {p q : Page} (h : SameView p q) : SameView q p :=
  ⟨h.nodes.symm, h.active.symm, h.efp.symm, h.byId.symm, h.lfor.symm,
    h.lthrows.symm, fun n => (h.elems n).symm⟩

theorem closestSelect_congr {p q : Page} (h : SameView p q) (n : Nat) :
    closestSelect p n = closestSelect q n := by
  unfold closestSelect
  rw [ancestorChain_congr h]
  have hf : (fun m => (p.elem m).tag == "select")
      = (fun m => (q.elem m).tag == "select") := by
    funext m
    rw [stripId_tag (h.elems m)]
  rw [hf]

theorem selfOrAncestor_congr {p q : Page} (h : SameView p q) {a b : Nat}
    (hrel : SelfOrAncestor p a b) : SelfOrAncestor q a b := by
  induction hrel with
  | refl x => exact SelfOrAncestor.refl x
  | step x m y hp _ ih =>
    refine SelfOrAncestor.step x m y ?_ ih
    rw [← stripId_parent (h.elems x)]
    exact hp

theorem mem_foldl_mono (f : List Nat → Nat → List Nat)
    (hmono : ∀ acc n x, x ∈ acc → x ∈ f acc n) :
    ∀ (l acc : List Nat) (x : Nat), x ∈ acc → x ∈ List.foldl f acc l := by
  intro l
  induction l with
  | nil => intro acc x hx; exact hx
  | cons n l ih => intro acc x hx; exact ih (f acc n) x (hmono acc n x hx)

theorem mem_foldl_of_push (f : List Nat → Nat → List Nat)
    (hmono : ∀ acc n x, x ∈ acc → x ∈ f acc n)
    (e : Nat) (hpush : ∀ acc, e ∈ f acc e) :
    ∀ (l acc : List Nat), e ∈ l → e ∈ List.foldl f acc l := by
  intro l
  induction l with
  | nil => intro acc he; cases he
  | cons n l ih =>
    intro acc he
    rcases List.mem_cons.1 he with rfl | hmem
    · exact mem_foldl_mono f hmono l (f acc e) e (hpush acc)
    · exact ih (f acc n) hmem

theorem secondPass_mono (p : Page) :
    ∀ (acc : List Nat) (n x : Nat), x ∈ acc →
      x ∈ (fun (results : List Nat) (n : Nat) =>
        let el := p.elem n
        if el.tag == "input" && getAttr el "type" == some "file" then results ++ [n]
        else if el.tag == "option" then results ++ [n]
        else if el.disabled || !isVisible el then results
        else if interactiveRoles.contains el.tag then results ++ [n]
        else results) acc n := by
  intro acc n x hx
  dsimp only
  split
  · exact List.mem_append_left _ hx
  · split
    · exact List.mem_append_left _ hx
    · split
      · exact hx
      · split
        · exact List.mem_append_left _ hx
        · exact hx

theorem option_mem_interactive (p : Page) (e : Nat)
    (he_mem : e ∈ p.nodes) (he_opt : (p.elem e).tag = "option") :
    e ∈ getInteractiveElements p := by
  unfold getInteractiveElements
  refine mem_foldl_of_push _ (secondPass_mono p) e ?_ (gatherAllElements p) _ ?_
  · intro acc
    dsimp only
    split
    · exact List.mem_append_right _ (List.mem_singleton.2 rfl)
    · split
      · exact List.mem_append_right _ (List.mem_singleton.2 rfl)
      · rename_i hopt2
        exfalso
        apply hopt2
        rw [he_opt]
        rfl
  · unfold gatherAllElements
    refine List.mem_filter.2 ⟨he_mem, ?_⟩
    unfold matchesGatherSelector
    rw [he_opt]
    rfl

theorem select_mem_interactive (p : Page) (s : Nat)
    (hs_mem : s ∈ p.nodes) (hs_tag : (p.elem s).tag = "select")
    (hs_vis : isVisible (p.elem s) = true)
    (hs_dis : (p.elem s).disabled = false) :
    s ∈ getInteractiveElements p := by
  unfold getInteractiveElements
  refine mem_foldl_of_push _ (secondPass_mono p) s ?_ (gatherAllElements p) _ ?_
  · intro acc
    dsimp only
    split
    · exact List.mem_append_right _ (List.mem_singleton.2 rfl)
    · split
      · exact List.mem_append_right _ (List.mem_singleton.2 rfl)
      · split
        · rename_i hdis
          rw [hs_dis, hs_vis] at hdis
          simp at hdis
        · split
          · exact List.mem_append_right _ (List.mem_singleton.2 rfl)
          · rename_i hrole
            exfalso
            apply hrole
            rw [hs_tag]
            decide
  · unfold gatherAllElements
    refine List.mem_filter.2 ⟨hs_mem, ?_⟩
    unfold matchesGatherSelector
    rw [hs_tag]
    rfl

theorem lookup_insertRec_self (l : List (Option Nat × IRecord)) (k : Option Nat)
    (v : IRecord) : ((insertRec l k v).lookup k).isSome = true := by
  unfold insertRec
  by_cases h : (l.lookup k).isSome = true
  · rw [if_pos h]
    rw [List.lookup_isSome_iff] at h ⊢
    obtain ⟨q, hq, hkq⟩ := h
    have himg : (fun kv => if kv.1 == k then (k, v) else kv) q = (k, v) := by
      have hq1 : (q.1 == k) = true := by
        simp only [beq_iff_eq] at hkq ⊢
        exact hkq.symm
      simp [hq1]
    exact ⟨(k, v), List.mem_map.2 ⟨q, hq, himg⟩, by simp⟩
  · rw [if_neg h]
    rw [List.lookup_isSome_iff]
    exact ⟨(k, v), by simp, by simp⟩

theorem lookup_insertRec_mono (l : List (Option Nat × IRecord)) (k0 : Option Nat)
    (v : IRecord) (k : Option Nat) (h : (l.lookup k).isSome = true) :
    ((insertRec l k0 v).lookup k).isSome = true := by
  unfold insertRec
  by_cases h0 : (l.lookup k0).isSome = true
  · rw [if_pos h0]
    rw [List.lookup_isSome_iff] at h ⊢
    obtain ⟨q, hq, hkq⟩ := h
    by_cases hq0 : (q.1 == k0) = true
    · refine ⟨(k0, v), ?_, ?_⟩
      · have himg : (fun kv => if kv.1 == k0 then (k0, v) else kv) q = (k0, v) := by
          simp [hq0]
        exact List.mem_map.2 ⟨q, hq, himg⟩
      · simp only [beq_iff_eq] at hkq hq0 ⊢
        rw [hkq, hq0]
    · refine ⟨q, ?_, hkq⟩
      have himg : (fun kv => if kv.1 == k0 then (k0, v) else kv) q = q := by
        simp [hq0]
      exact List.mem_map.2 ⟨q, hq, himg⟩
  · rw [if_neg h0]
    rw [List.lookup_isSome_iff] at h ⊢
    obtain ⟨q, hq, hkq⟩ := h
    exact ⟨q, List.mem_append_left _ hq, hkq⟩

theorem lookup_insertRec_cases (l : List (Option Nat × IRecord)) (k0 : Option Nat)
    (v : IRecord) (k : Option Nat)
    (h : ((insertRec l k0 v).lookup k).isSome = true) :
    k = k0 ∨ (l.lookup k).isSome = true := by
  unfold insertRec at h
  by_cases h0 : (l.lookup k0).isSome = true
  · rw [if_pos h0] at h
    rw [List.lookup_isSome_iff] at h
    obtain ⟨q, hq, hkq⟩ := h
    obtain ⟨q0, hq0, himg⟩ := List.mem_map.1 hq
    by_cases hcond : (q0.1 == k0) = true
    · rw [if_pos hcond] at himg
      left
      simp only [beq_iff_eq] at hkq
      rw [hkq, ← himg]
    · rw [if_neg hcond] at himg
      right
      rw [List.lookup_isSome_iff]
      refine ⟨q0, hq0, ?_⟩
      rw [himg]
      exact hkq
  · rw [if_neg h0] at h
    rw [List.lookup_isSome_iff] at h
    obtain ⟨q, hq, hkq⟩ := h
    rcases List.mem_append.1 hq with hql | hqr
    · right
      rw [List.lookup_isSome_iff]
      exact ⟨q, hql, hkq⟩
    · left
      rcases List.mem_singleton.1 hqr with rfl
      simpa using hkq

theorem rectsLoop_lookup_mono (p : Page) :
    ∀ (es : List Nat) (acc : List (Option Nat × IRecord)) (k : Option Nat),
      (acc.lookup k).isSome = true →
      ((rectsLoop p es acc).lookup k).isSome = true := by
  intro es
  induction es with
  | nil => intro acc k h; exact h
  | cons n es ih =>
    intro acc k h
    unfold rectsLoop
    by_cases hn : (((p.elem n).tag == "option") && !optionKept p n) = true
    · rw [if_pos hn]
      exact ih acc k h
    · rw [if_neg hn]
      exact ih _ k (lookup_insertRec_mono acc _ _ k h)

theorem rectsLoop_mem_lookup (p : Page) :
    ∀ (es : List Nat) (acc : List (Option Nat × IRecord)) (e : Nat),
      e ∈ es →
      (((p.elem e).tag == "option") && !optionKept p e) = false →
      ((rectsLoop p es acc).lookup ((p.elem e).elementId)).isSome = true := by
  intro es
  induction es with
  | nil => intro acc e he; cases he
  | cons n es ih =>
    intro acc e he hcond
    unfold rectsLoop
    by_cases hn : (((p.elem n).tag == "option") && !optionKept p n) = true
    · rw [if_pos hn]
      rcases List.mem_cons.1 he with rfl | hmem
      · rw [hcond] at hn
        cases hn
      · exact ih acc e hmem hcond
    · rw [if_neg hn]
      rcases List.mem_cons.1 he with rfl | hmem
      · exact rectsLoop_lookup_mono p es _ _ (lookup_insertRec_self acc _ _)
      · exact ih _ e hmem hcond

theorem rectsLoop_lookup_some (p : Page) :
    ∀ (es : List Nat) (acc : List (Option Nat × IRecord)) (k : Option Nat),
      ((rectsLoop p es acc).lookup k).isSome = true →
      (acc.lookup k).isSome = true
      ∨ ∃ n ∈ es, (p.elem n).elementId = k
          ∧ (((p.elem n).tag == "option") && !optionKept p n) = false := by
  intro es
  induction es with
  | nil => intro acc k h; exact Or.inl h
  | cons n es ih =>
    intro acc k h
    unfold rectsLoop at h
    by_cases hn : (((p.elem n).tag == "option") && !optionKept p n) = true
    · rw [if_pos hn] at h
      rcases ih acc k h with h' | ⟨m, hm, hk, hc⟩
      · exact Or.inl h'
      · exact Or.inr ⟨m, List.mem_cons_of_mem n hm, hk, hc⟩
    · rw [if_neg hn] at h
      rcases ih _ k h with h' | ⟨m, hm, hk, hc⟩
      · rcases lookup_insertRec_cases acc _ _ k h' with rfl | h''
        · refine Or.inr ⟨n, List.mem_cons_self n es, rfl, ?_⟩
          simp only [Bool.not_eq_true] at hn
          exact hn
        · exact Or.inl h''
      · exact Or.inr ⟨m, List.mem_cons_of_mem n hm, hk, hc⟩

theorem elemSel_unlabeled (n : Nat) : (elemSel n).elementId = none := by
  unfold elemSel
  split
  · rfl
  · split <;> rfl

/-- C6: within one page lifetime starting from an unlabelled document and
the fixed counter base 10, every stamped identifier lies in [10, counter)
and distinct nodes never share one; and across any further engine step -
labelling or removal of nodes - the counter only grows, existing
identifiers are never reassigned, and every newly assigned identifier is
strictly larger than every identifier assigned before it. -/
theorem c6_identifier_monotonicity (p0 : Page) (c : Nat) (p : Page)
    (h0 : ∀ e, (p0.elem e).elementId = none)
    (hreach : Relation.ReflTransGen EngineStep (10, p0) (c, p)) :
    10 ≤ c
    ∧ (∀ e k, (p.elem e).elementId = some k → 10 ≤ k ∧ k < c)
    ∧ (∀ e e' k k', (p.elem e).elementId = some k →
        (p.elem e').elementId = some k' → e ≠ e' → k ≠ k')
    ∧ (∀ c' p', EngineStep (c, p) (c', p') →
        c ≤ c'
        ∧ (∀ e k, (p.elem e).elementId = some k → (p'.elem e).elementId = some k)
        ∧ (∀ e k', (p.elem e).elementId = none → (p'.elem e).elementId = some k' →
            ∀ e2 k2, (p.elem e2).elementId = some k2 → k2 < k')) := by
  have hInv : ∀ (s : Nat × Page), Relation.ReflTransGen EngineStep (10, p0) s →
      10 ≤ s.1 ∧ (∀ e k, ((s.2).elem e).elementId = some k → 10 ≤ k ∧ k < s.1)
      ∧ (∀ e e' k k', ((s.2).elem e).elementId = some k →
          ((s.2).elem e').elementId = some k' → e ≠ e' → k ≠ k') := by
    intro s hs
    induction hs with
    | refl =>
      refine ⟨Nat.le_refl 10, ?_, ?_⟩
      · intro e k hk
        rw [h0 e] at hk
        cases hk
      · intro e e' k k' hk _ _
        rw [h0 e] at hk
        cases hk
    | tail _ hbc ih =>
      obtain ⟨hb10, hbound, hinj⟩ := ih
      cases hbc with
      | label cb pb es =>
        refine ⟨Nat.le_trans hb10 (labelLoop_counter_le es cb pb), ?_, ?_⟩
        · intro e k hk
          exact ⟨labelLoop_id_ge_base es cb pb 10 hb10
              (fun e2 k2 h2 => (hbound e2 k2 h2).1) e k hk,
            labelLoop_id_lt_counter es cb pb
              (fun e2 k2 h2 => (hbound e2 k2 h2).2) e k hk⟩
        · exact labelLoop_inj es cb pb
            (fun e2 k2 h2 => (hbound e2 k2 h2).2) hinj
      | remove cb pb e =>
        exact ⟨hb10, hbound, hinj⟩
  obtain ⟨h10, hbound, hinj⟩ := hInv (c, p) hreach
  refine ⟨h10, hbound, hinj, ?_⟩
  intro c' p' hstep
  cases hstep with
  | label _ _ es =>
    refine ⟨labelLoop_counter_le es c p, ?_, ?_⟩
    · intro e k hk
      exact labelLoop_preserves_label es c p e k hk
    · intro e k' hnone hsome e2 k2 h2
      have hge := labelLoop_fresh_ge es c p e k' hnone hsome
      have hlt := (hbound e2 k2 h2).2
      omega
  | remove _ _ e0 =>
    refine ⟨Nat.le_refl c, ?_, ?_⟩
    · intro e k hk
      exact hk
    · intro e k' hnone hsome e2 k2 h2
      have hsome' : (p.elem e).elementId = some k' := hsome
      rw [hnone] at hsome'
      cases hsome'

/-- C6 witness: a single labelling step from an unlabelled one-node page
stamps identifier 10 and the bounds of the theorem hold there. -/
theorem c6_identifier_monotonicity_witness :
    10 ≤ 10 ∧ 10 < (labelLoop 10 pageOneDiv [0]).1 := by
  have h := c6_identifier_monotonicity pageOneDiv
    (labelLoop 10 pageOneDiv [0]).1 (labelLoop 10 pageOneDiv [0]).2
    (fun _ => rfl)
    (Relation.ReflTransGen.single (EngineStep.label 10 pageOneDiv [0]))
  exact h.2.1 0 10 rfl

/-- C4: getInteractiveRects includes a record for an option element exactly
when the owning select is the focused element, or the option is itself
visible, or the owning select carries the open attribute (its explicitly
expanded state); and on the concrete closed unfocused select with three
hidden options no option record is produced, while focusing the select
produces all three. The labelling hypotheses say the initial page's stamped
identifiers respect the counter and are distinct; the focus hypothesis says
nothing strictly inside the select can hold focus (in a browser, focus on a
closed select rests on the select itself). -/
theorem c4_option_inclusion_rule :
    (∀ (c : Nat) (p : Page) (e s : Nat),
      (∀ e2 k2, (p.elem e2).elementId = some k2 → k2 < c) →
      (∀ e2 e2' k2 k2', (p.elem e2).elementId = some k2 →
        (p.elem e2').elementId = some k2' → e2 ≠ e2' → k2 ≠ k2') →
      e ∈ p.nodes → (p.elem e).tag = "option" →
      closestSelect p e = some s →
      s ∈ p.nodes →
      isVisible (p.elem s) = true → (p.elem s).disabled = false →
      (∀ a, p.activeElement = some a → SelfOrAncestor p a s → a = s) →
      ((((getInteractiveRects c p).results.lookup
          (((getInteractiveRects c p).page.elem e).elementId)).isSome = true) ↔
        (p.activeElement = some s ∨ isVisible (p.elem e) = true
          ∨ hasAttr (p.elem s) "open" = true)))
    ∧ (getInteractiveRects 10 pageSel).results.lookup (some 11) = none
    ∧ (getInteractiveRects 10 pageSel).results.lookup (some 12) = none
    ∧ (getInteractiveRects 10 pageSel).results.lookup (some 13) = none
    ∧ ((getInteractiveRects 10 pageSelFocused).results.lookup (some 11)).isSome = true
    ∧ ((getInteractiveRects 10 pageSelFocused).results.lookup (some 12)).isSome = true
    ∧ ((getInteractiveRects 10 pageSelFocused).results.lookup (some 13)).isSome = true := by
  refine ⟨?_, by decide, by decide, by decide, by decide, by decide, by decide⟩
  intro c p e s hinit_lt hinit_inj he_mem he_opt hsel hs_mem hs_vis hs_dis hfocus
  have hs_tag : (p.elem s).tag = "select" := by
    have hpred := List.find?_some hsel
    simpa using hpred
  have hsv : SameView p ((labelLoop c p (getInteractiveElements p)).2) :=
    sameView_labelLoop (getInteractiveElements p) c p
  have hes : getInteractiveElements ((labelLoop c p (getInteractiveElements p)).2)
      = getInteractiveElements p := (getInteractiveElements_congr hsv).symm
  have he_int : e ∈ getInteractiveElements p := option_mem_interactive p e he_mem he_opt
  have hs_int : s ∈ getInteractiveElements p :=
    select_mem_interactive p s hs_mem hs_tag hs_vis hs_dis
  obtain ⟨ke, hke⟩ := Option.isSome_iff_exists.1
    (labelLoop_labels (getInteractiveElements p) c p e he_int)
  obtain ⟨ks, hks⟩ := Option.isSome_iff_exists.1
    (labelLoop_labels (getInteractiveElements p) c p s hs_int)
  have hinj1 := labelLoop_inj (getInteractiveElements p) c p hinit_lt hinit_inj
  have htag1 : (((labelLoop c p (getInteractiveElements p)).2).elem e).tag = "option" := by
    rw [← stripId_tag (hsv.elems e)]
    exact he_opt
  have hsel1 : closestSelect ((labelLoop c p (getInteractiveElements p)).2) e = some s := by
    rw [← closestSelect_congr hsv]
    exact hsel
  have hvis1 : isVisible (((labelLoop c p (getInteractiveElements p)).2).elem e)
      = isVisible (p.elem e) := (isVisible_congr (hsv.elems e)).symm
  have hopen1 : hasAttr (((labelLoop c p (getInteractiveElements p)).2).elem s) "open"
      = hasAttr (p.elem s) "open" := (hasAttr_congr (hsv.elems s) "open").symm
  have hfoc_iff : (((((labelLoop c p (getInteractiveElements p)).2).elem s).elementId).isSome
        && (getFocusedElementId ((labelLoop c p (getInteractiveElements p)).2)
            == (((labelLoop c p (getInteractiveElements p)).2).elem s).elementId)) = true
      ↔ p.activeElement = some s := by
    constructor
    · intro hfoc
      rw [Bool.and_eq_true] at hfoc
      have hbeq := hfoc.2
      have hgf : getFocusedElementId ((labelLoop c p (getInteractiveElements p)).2)
          = (((labelLoop c p (getInteractiveElements p)).2).elem s).elementId := by
        simpa using hbeq
      rw [hks] at hgf
      unfold getFocusedElementId at hgf
      rw [← hsv.active] at hgf
      cases ha : p.activeElement with
      | none =>
        rw [ha] at hgf
        simp at hgf
      | some a =>
        rw [ha] at hgf
        simp only [Option.bind_eq_some] at hgf
        obtain ⟨m, hfind, hid⟩ := hgf
        have hmchain := List.mem_of_find?_eq_some hfind
        have hms : m = s := by
          by_cases hmse : m = s
          · exact hmse
          · exact absurd rfl (hinj1 m s ks ks hid hks hmse)
        subst hms
        have hrel1 : SelfOrAncestor ((labelLoop c p (getInteractiveElements p)).2) a m :=
          selfOrAncestor_of_mem_chain _ _ a m hmchain
        have hrel : SelfOrAncestor p a m := selfOrAncestor_congr (sameView_symm hsv) hrel1
        rw [hfocus a ha hrel]
    · intro ha
      have ha1 : ((labelLoop c p (getInteractiveElements p)).2).activeElement = some s := by
        rw [← hsv.active]
        exact ha
      have hgf : getFocusedElementId ((labelLoop c p (getInteractiveElements p)).2)
          = some ks := by
        unfold getFocusedElementId
        rw [ha1]
        show ((ancestorChain ((labelLoop c p (getInteractiveElements p)).2) (s + 1) s).find?
            (fun m => ((((labelLoop c p (getInteractiveElements p)).2).elem m).elementId).isSome)).bind
            (fun m => (((labelLoop c p (getInteractiveElements p)).2).elem m).elementId) = some ks
        have hchain : ancestorChain ((labelLoop c p (getInteractiveElements p)).2) (s + 1) s
            = s :: (match ((((labelLoop c p (getInteractiveElements p)).2).elem s)).parent with
                    | none => []
                    | some m => ancestorChain ((labelLoop c p (getInteractiveElements p)).2) s m) :=
          rfl
        rw [hchain, List.find?_cons_of_pos _ (by rw [hks]; rfl)]
        simp [hks]
      rw [hks, hgf]
      simp
  have hexp_eq : optionKept ((labelLoop c p (getInteractiveElements p)).2) e
      = (((((labelLoop c p (getInteractiveElements p)).2).elem s).elementId).isSome
          && (getFocusedElementId ((labelLoop c p (getInteractiveElements p)).2)
              == (((labelLoop c p (getInteractiveElements p)).2).elem s).elementId)
        || isVisible (((labelLoop c p (getInteractiveElements p)).2).elem e)
        || hasAttr (((labelLoop c p (getInteractiveElements p)).2).elem s) "open") := by
    unfold optionKept
    rw [hsel1]
  have hkept_iff : optionKept ((labelLoop c p (getInteractiveElements p)).2) e = true
      ↔ (p.activeElement = some s ∨ isVisible (p.elem e) = true
          ∨ hasAttr (p.elem s) "open" = true) := by
    rw [hexp_eq]
    simp only [Bool.or_eq_true]
    constructor
    · rintro ((hf | hv) | ho)
      · exact Or.inl (hfoc_iff.1 hf)
      · exact Or.inr (Or.inl (by rw [← hvis1]; exact hv))
      · exact Or.inr (Or.inr (by rw [← hopen1]; exact ho))
    · rintro (hf | hv | ho)
      · exact Or.inl (Or.inl (hfoc_iff.2 hf))
      · exact Or.inl (Or.inr (by rw [hvis1]; exact hv))
      · exact Or.inr (by rw [hopen1]; exact ho)
  show ((rectsLoop ((labelLoop c p (getInteractiveElements p)).2)
      (getInteractiveElements ((labelLoop c p (getInteractiveElements p)).2)) []).lookup
      ((((labelLoop c p (getInteractiveElements p)).2).elem e).elementId)).isSome = true ↔ _
  constructor
  · intro hlook
    rcases rectsLoop_lookup_some ((labelLoop c p (getInteractiveElements p)).2)
        (getInteractiveElements ((labelLoop c p (getInteractiveElements p)).2)) [] _ hlook with
      h0 | ⟨m, hm, hkeq, hcond⟩
    · simp at h0
    · rw [hke] at hkeq
      have hme : m = e := by
        by_cases hme : m = e
        · exact hme
        · exact absurd rfl (hinj1 m e ke ke hkeq hke hme)
      subst hme
      rw [htag1] at hcond
      have hkept : optionKept ((labelLoop c p (getInteractiveElements p)).2) m = true := by
        simpa using hcond
      exact hkept_iff.1 hkept
  · intro hrhs
    apply rectsLoop_mem_lookup
    · rw [hes]
      exact he_int
    · rw [htag1, hkept_iff.2 hrhs]
      rfl

/-- C4 witness: the focused-select scenario instantiates the general rule:
option 1 of pageSelFocused has a record exactly because the select is the
focused element. -/
theorem c4_option_inclusion_rule_witness :
    (((getInteractiveRects 10 pageSelFocused).results.lookup
        (((getInteractiveRects 10 pageSelFocused).page.elem 1).elementId)).isSome = true) ↔
      (pageSelFocused.activeElement = some 0
        ∨ isVisible (pageSelFocused.elem 1) = true
        ∨ hasAttr (pageSelFocused.elem 0) "open" = true) := by
  have hlt : ∀ e2 k2, (pageSelFocused.elem e2).elementId = some k2 → k2 < 10 := by
    intro e2 k2 h
    have h2 : (elemSel e2).elementId = some k2 := h
    rw [elemSel_unlabeled e2] at h2
    cases h2
  have hinj : ∀ e2 e2' k2 k2', (pageSelFocused.elem e2).elementId = some k2 →
      (pageSelFocused.elem e2').elementId = some k2' → e2 ≠ e2' → k2 ≠ k2' := by
    intro e2 e2' k2 k2' h _ _
    have h2 : (elemSel e2).elementId = some k2 := h
    rw [elemSel_unlabeled e2] at h2
    cases h2
  have hfoc : ∀ a, pageSelFocused.activeElement = some a →
      SelfOrAncestor pageSelFocused a 0 → a = 0 := by
    intro a ha _
    have h2 : (some 0 : Option Nat) = some a := ha
    exact (Option.some.inj h2).symm
  exact c4_option_inclusion_rule.1 10 pageSelFocused 1 0 hlt hinj
    (by decide) rfl rfl (by decide) rfl rfl hfoc

/-- C9: for every element and point, isTopmost is true exactly when the
host reports no element at the point, or reports an element that is the
given element or has it on its parent chain. -/
theorem c9_isTopmost_spec (p : Page) (n : Nat) (x y : ℚ) (hwf : WFParents p) :
    isTopmost p n x y = true ↔
      (match p.elementFromPoint x y with
       | none => True
       | some hit => SelfOrAncestor p hit n) := by
  unfold isTopmost
  cases hefp : p.elementFromPoint x y with
  | none => simp
  | some hit =>
    rw [List.elem_iff]
    constructor
    · intro hc
      exact selfOrAncestor_of_mem_chain p (hit + 1) hit n hc
    · intro hrel
      exact mem_chain_of_selfOrAncestor p hwf hit n hrel (hit + 1) (Nat.lt_succ_self hit)

/-- C9 witness: on pageC1 (all parent links empty) the hit-tested element 1
is itself reported at (5, 5), so isTopmost holds for it. -/
theorem c9_isTopmost_spec_witness :
    isTopmost pageC1 1 (5 : ℚ) (5 : ℚ) = true := by
  have hwf : WFParents pageC1 := by
    intro n m h
    by_cases hn : n = 0 <;> simp [pageC1, defPage, defElem, hn] at h
  exact (c9_isTopmost_spec pageC1 1 5 5 hwf).2 (SelfOrAncestor.refl 1)

/-- C10: for every element, getApproximateAriaName returns the same value as
the variant with the mid-cascade second aria-label check removed: that check
is unreachable, because an element with an aria-label attribute already
returned at the first check. -/
theorem c10_second_aria_label_check_redundant (p : Page) (n : Nat) :
    getApproximateAriaName p n = getApproximateAriaNameNoSecond p n := by
  unfold getApproximateAriaName getApproximateAriaNameNoSecond
  by_cases h : hasAttr (p.elem n) "aria-label" = true
  · simp [h]
  · simp only [Bool.not_eq_true] at h
    simp [h]

end WebSurfer

namespace WebSurfer

/-- C7: getPageMarkdown never propagates a failure: for every document and
any internal failure inside its try block, the public result is a string,
equal to the rendering result on success and to the diagnostic description
of the error on failure. -/
theorem c7_markdown_never_raises (fault : Option String) (body : MNode) :
    (∀ msg, getPageMarkdownTry fault body = Except.error msg →
      getPageMarkdown fault body = "Error extracting page content: " ++ msg)
    ∧ (∀ md, getPageMarkdownTry fault body = Except.ok md →
      getPageMarkdown fault body = md) := by
  constructor
  · intro msg h
    unfold getPageMarkdown
    rw [h]
  · intro md h
    unfold getPageMarkdown
    rw [h]

/-- C7 witness: an injected failure during markdown generation comes back
as the diagnostic string, not as an exception. -/
theorem c7_markdown_never_raises_witness :
    getPageMarkdown (some "boom") (MNode.elem "body" [] [])
      = "Error extracting page content: boom" :=
  (c7_markdown_never_raises (some "boom") (MNode.elem "body" [] [])).1 "boom" rfl

/-- C8 counterexample: on metaDocC8 the first script body is not valid
JSON, yet the jsonld field is the parsed combined value, because the single
JSON.parse call receives the comma-joined array coercion - refuting the
claim that an invalid script body always yields the raw string. -/
theorem c8_counterexample_combined_parse :
    parseJson "[1,2" = none
    ∧ (getPageMetadata metaDocC8).jsonld
        = some (JsonldField.parsed (Json.arr [Json.num 1, Json.num 2, Json.num 3])) := by
  constructor
  · rfl
  · rfl

/-- C8 amended: getPageMetadata never throws; when any ld+json script is
present it attempts one combined parse of the comma-joined trimmed bodies:
on success the jsonld field is the parsed value, and on failure it is the
array of trimmed raw script strings (an individual invalid body does not by
itself force the fallback, and the fallback is the array, not a bare
string). -/
theorem c8_amended_jsonld_fallback (d : MetaDoc) (hne : d.ldScripts ≠ []) :
    (∀ v, parseJson (joinComma (d.ldScripts.map trimStr)) = some v →
      (getPageMetadata d).jsonld = some (JsonldField.parsed v))
    ∧ (parseJson (joinComma (d.ldScripts.map trimStr)) = none →
      (getPageMetadata d).jsonld = some (JsonldField.raw (d.ldScripts.map trimStr))) := by
  have hlen : 0 < (d.ldScripts.map trimStr).length := by
    cases hd : d.ldScripts with
    | nil => exact absurd hd hne
    | cons a l => simp
  constructor
  · intro v hv
    simp only [getPageMetadata, getJsonLd]
    rw [hv]
    simp [hlen, hne]
  · intro hv
    simp only [getPageMetadata, getJsonLd]
    rw [hv]
    simp [hlen, hne]

/-- C8 amended witness: a single invalid script body fails the combined
parse and comes back as the raw one-element array. -/
theorem c8_amended_jsonld_fallback_witness :
    (getPageMetadata metaDocC8b).jsonld
      = some (JsonldField.raw ["not json"]) :=
  (c8_amended_jsonld_fallback metaDocC8b (by simp [metaDocC8b])).2 rfl

end WebSurfer
